import Mathlib

/-!
The ICMP packet codec of mylg

A shallow embedding of the packet codec of `icmp/icmp.go`: the two response
parsers `icmpV4RespParser` / `icmpV6RespParser`, the Echo Request builders
`icmpV4Message` / `icmpV6Message` and the payload sizing `icmpPayload`.

Modelling conventions
* a `[]byte` is a `List Byte` of its elements; where the code slices it, the
  bytes of the backing array behind its end come along as a second list
  `spare`, and a slice expression `b[lo:hi]` is checked against the capacity
  `len(b) + len(spare)` as Go does;
* a Go run-time panic (index out of range, slice bounds out of range,
  `rand.Intn` with a non-positive argument, `make` with a length out of
  range) is a `Fault`, the error side of `Except Fault`; statements are
  evaluated in source order, so the first failing access decides the fault;
* Go `int` is 64 bit two's complement: `int` arithmetic that can leave the
  range is wrapped with `wrapInt`. Fields that only ever hold values converted
  from bytes are kept as `Nat`;
* `make([]byte, n)` allocates `n` zero bytes when `n` is at most the
  runtime's `maxAlloc` and at most `mem`, the largest block the process can
  obtain; the allocations of marshalling are checked the same way, the small
  fixed ones (a 16-byte address, a header) are not;
* `net.IP` is a byte list, the nil address being `[]`;
* `rand.Intn` takes the state of the random source as an argument `draw`;
* the library functions the codec calls (`ipv4.ParseHeader`, `icmp.Message`
  marshalling with its checksum, `net.IPv4`) are embedded from the library
  sources.
-/

namespace Mylg

/-! ## Bytes, faults and addresses -/

/-- One octet -/
abbrev Byte := Fin 256

/-- Go run-time panics, and the fatal out-of-memory error, that can abort a
call of the codec -/
inductive Fault where
  | indexOutOfRange
  | sliceOutOfRange
  | intnNonPositive
  | makeLenOutOfRange
  | outOfMemory
  deriving DecidableEq, Repr

/-- Go `net.IP`: a byte slice, nil when empty -/
abbrev IP := List Byte

/-- The index expression `b[i]`: panics when `i` is not below `len(b)` -/
def idx (b : List Byte) (i : Nat) : Except Fault Byte :=
  match b[i]? with
  | some x => .ok x
  | none => .error .indexOutOfRange

/-- The slice expression `b[lo:hi]` on a slice with elements `b` whose backing
array goes on with the bytes `spare`: the bounds are checked against the
capacity `len(b) + len(spare)`, not the length, so the result can hold bytes
from behind the end of `b`. The result is given by its elements. -/
def slice (b spare : List Byte) (lo hi : Nat) : Except Fault (List Byte) :=
  if lo ≤ hi ∧ hi ≤ b.length + spare.length then .ok (((b ++ spare).take hi).drop lo)
  else .error .sliceOutOfRange

/-- The 12-byte prefix of an IPv4 address in 16-byte form (`net.v4InV6Prefix`) -/
def v4InV6Prefix : List Byte := [0, 0, 0, 0, 0, 0, 0, 0, 0, 0, 0xff, 0xff]

/-- Go `net.IPv4(a, b, c, d)`: the 16-byte form of the address a.b.c.d -/
def netIPv4 (a b c d : Byte) : IP := v4InV6Prefix ++ [a, b, c, d]

/-- Go `net.IPv6len` -/
abbrev IPv6len : Nat := 16

/-- Go `make([]byte, n)` for a non-negative length -/
def makeBytes (n : Nat) : List Byte := List.replicate n 0

/-- Go builtin `copy(dst, src)`: overwrites the first `min(len dst, len src)`
bytes of `dst` -/
def copyBytes (dst src : List Byte) : List Byte :=
  src.take dst.length ++ dst.drop (min dst.length src.length)

/-! ## Constants of `icmp.go` -/

abbrev IPv4ICMPTypeEchoReply : Nat := 0
abbrev IPv4ICMPTypeDestinationUnreachable : Nat := 3
abbrev IPv4ICMPTypeTimeExceeded : Nat := 11
abbrev IPv6ICMPTypeEchoReply : Nat := 129
abbrev IPv6ICMPTypeDestinationUnreachable : Nat := 1
abbrev IPv6ICMPTypeTimeExceeded : Nat := 3

/-! ## The decoded response -/

/-- The anonymous struct `udp` of `ICMPResp` -/
structure UDPInfo where
  dstPort : Nat := 0
  deriving DecidableEq, Repr

/-- The anonymous struct `ip` of `ICMPResp`: quoted destination and
identification -/
structure IPInfo where
  dst : IP := []
  id : Nat := 0
  deriving DecidableEq, Repr

/-- Go `ICMPResp`; the default value is Go's zero value -/
structure ICMPResp where
  typ : Nat := 0
  code : Nat := 0
  id : Nat := 0
  seq : Nat := 0
  src : IP := []
  udp : UDPInfo := {}
  ip : IPInfo := {}
  deriving DecidableEq, Repr

/-! ## `golang.org/x/net/ipv4.ParseHeader` -/

/-- Errors returned by `ipv4.ParseHeader` -/
inductive HeaderError where
  | headerTooShort
  | extHeaderTooShort
  deriving DecidableEq, Repr

/-- The fields of `ipv4.Header` that do not depend on the platform and on
options -/
structure Header where
  Version : Nat
  Len : Nat
  TOS : Nat
  ID : Nat
  TTL : Nat
  Protocol : Nat
  Checksum : Nat
  Src : IP
  Dst : IP
  deriving DecidableEq, Repr

/-- Go `ipv4.HeaderLen` -/
abbrev HeaderLen : Nat := 20

/-- Library function `ipv4.ParseHeader` of golang.org/x/net, which the IPv4
parser calls on the quoted header: it rejects fewer than 20 bytes and a
header length field (low nibble of byte 0, in 32-bit words) that exceeds the
bytes given, and otherwise reads the fixed fields at their offsets. -/
def ParseHeader (b : List Byte) : Except HeaderError Header :=
  if h : b.length < 20 then .error .headerTooShort
  else
    let hdrlen := (b[0].val &&& 0x0f) <<< 2
    if b.length < hdrlen then .error .extHeaderTooShort
    else .ok {
      Version := b[0].val >>> 4
      Len := hdrlen
      TOS := b[1].val
      ID := (b[4].val <<< 8) ||| b[5].val
      TTL := b[8].val
      Protocol := b[9].val
      Checksum := (b[10].val <<< 8) ||| b[11].val
      Src := netIPv4 b[12] b[13] b[14] b[15]
      Dst := netIPv4 b[16] b[17] b[18] b[19] }

/-! ## The response parsers -/

/-- Go `bytesToIPv6` -/
def bytesToIPv6 (b : List Byte) : IP :=
  copyBytes (makeBytes IPv6len) b

/-- Go `icmpV4RespParser`: `b` is the datagram as the raw socket delivers it,
IP header first, and `spare` the rest of the receive buffer behind it -/
def icmpV4RespParser (b spare : List Byte) : Except Fault ICMPResp := do
  let typ ← idx b 20
  let code ← idx b 21
  let s0 ← idx b 12
  let s1 ← idx b 13
  let s2 ← idx b 14
  let s3 ← idx b 15
  let resp : ICMPResp := { typ := typ.val, code := code.val, src := netIPv4 s0 s1 s2 s3 }
  if resp.typ = IPv4ICMPTypeEchoReply then do
    let i0 ← idx b 24
    let i1 ← idx b 25
    let q0 ← idx b 26
    let q1 ← idx b 27
    pure { resp with id := (i0.val <<< 8) ||| i1.val, seq := (q0.val <<< 8) ||| q1.val }
  else if resp.typ = IPv4ICMPTypeDestinationUnreachable then do
    let q ← slice b spare 28 48
    match ParseHeader q with
    | .ok h => pure { resp with ip := { id := h.ID, dst := h.Dst } }
    | .error _ => pure resp
  else if resp.typ = IPv4ICMPTypeTimeExceeded then do
    let q ← slice b spare 28 48
    let parsed := ParseHeader q
    let i0 ← idx b 52
    let i1 ← idx b 53
    let q0 ← idx b 54
    let q1 ← idx b 55
    let resp : ICMPResp :=
      { resp with id := (i0.val <<< 8) ||| i1.val, seq := (q0.val <<< 8) ||| q1.val }
    match parsed with
    | .ok h => pure { resp with ip := { id := h.ID, dst := h.Dst } }
    | .error _ => pure resp
  else
    pure resp

/-- Go `icmpV6RespParser`: `b` is the ICMPv6 message without IP header, and
`spare` the rest of the receive buffer behind it -/
def icmpV6RespParser (b spare : List Byte) : Except Fault ICMPResp := do
  let typ ← idx b 0
  let code ← idx b 1
  let resp : ICMPResp := { typ := typ.val, code := code.val }
  if b.length < 44 ∧ resp.typ = IPv6ICMPTypeTimeExceeded then
    pure resp
  else if resp.typ = IPv6ICMPTypeEchoReply then do
    let i0 ← idx b 4
    let i1 ← idx b 5
    let q0 ← idx b 6
    let q1 ← idx b 7
    pure { resp with id := (i0.val <<< 8) ||| i1.val, seq := (q0.val <<< 8) ||| q1.val }
  else if resp.typ = IPv6ICMPTypeDestinationUnreachable then do
    let q ← slice b spare 32 48
    pure { resp with ip := { resp.ip with dst := bytesToIPv6 q } }
  else if resp.typ = IPv6ICMPTypeTimeExceeded then do
    let i0 ← idx b 52
    let i1 ← idx b 53
    let q0 ← idx b 54
    let q1 ← idx b 55
    let q ← slice b spare 32 48
    pure { resp with
      id := (i0.val <<< 8) ||| i1.val, seq := (q0.val <<< 8) ||| q1.val,
      ip := { resp.ip with dst := bytesToIPv6 q } }
  else
    pure resp

/-! ## Payload sizing -/

/-- Two's complement wrap of a mathematical integer into the range of Go's
64-bit `int` -/
def wrapInt (x : Int) : Int := (x + 2 ^ 63) % 2 ^ 64 - 2 ^ 63

/-- The values of Go's `int` -/
def IsInt (x : Int) : Prop := -(2 ^ 63) ≤ x ∧ x < 2 ^ 63

instance (x : Int) : Decidable (IsInt x) := by unfold IsInt; infer_instance

/-- Go `absInt` -/
def absInt (i : Int) : Int :=
  if i < 0 then wrapInt (i * -1) else i

/-- Go `rand.Intn(n)`: panics when `n <= 0`, otherwise returns a number in
`[0, n)`. The generator's state is the argument `draw`; every value of the
range is returned for some `draw`. -/
def randIntn (draw : Nat) (n : Int) : Except Fault Int :=
  if n ≤ 0 then .error .intnNonPositive else .ok ((draw : Int) % n)

/-- The Go runtime's bound on the size of one allocation (`maxAlloc`): 2^48
bytes on 64-bit Linux -/
def maxAlloc : Nat := 2 ^ 48

/-- Go `make([]byte, n)` on an `int`. It panics with `makeslice: len out of
range` on a negative length and on a length above `maxAlloc`. Below that the
allocation is granted when it fits `mem`, the largest block the process can
obtain during the call; otherwise the program dies out of memory. -/
def makeSlice (mem : Nat) (n : Int) : Except Fault (List Byte) :=
  if n < 0 ∨ (maxAlloc : Int) < n then .error .makeLenOutOfRange
  else if (mem : Int) < n then .error .outOfMemory
  else .ok (makeBytes n.toNat)

/-- Go `append(b, mb...)` on a slice `b` without spare capacity: a backing
array for both is allocated -/
def appendBytes (mem : Nat) (b mb : List Byte) : Except Fault (List Byte) := do
  let _ ← makeSlice mem ((b.length : Int) + (mb.length : Int))
  pure (b ++ mb)

/-- Go `icmpPayload` -/
def icmpPayload (mem draw : Nat) (pSize : Int) (isIPv4 : Bool) :
    Except Fault (List Byte) := do
  let gData : Int :=
    if isIPv4 then wrapInt (absInt pSize - (20 + 8))
    else wrapInt (absInt pSize - (40 + 8))
  -- in case small packet requested
  let gData : Int := if gData < 0 then 0 else gData
  if pSize ≥ 0 then
    makeSlice mem gData
  else do
    let r ← randIntn draw gData
    makeSlice mem r

/-! ## `golang.org/x/net/icmp`: marshalling an Echo message -/

/-- Go conversion `byte(x)` of a non-negative number -/
def byteOf (n : Nat) : Byte := ⟨n % 256, Nat.mod_lt _ (by decide)⟩

/-- Go conversion `uint16(x)` of an `int` -/
def uint16 (x : Int) : Nat := (x % 65536).toNat

/-- Go `binary.BigEndian.PutUint16`: the two bytes written -/
def putUint16 (v : Nat) : List Byte := [byteOf (v >>> 8), byteOf v]

/-- Go `icmp.Echo` -/
structure Echo where
  ID : Int
  Seq : Int
  Data : List Byte

/-- The dynamic type of `icmp.Message.Type` -/
inductive MsgType where
  | ipv4 (t : Nat)
  | ipv6 (t : Nat)
  | other
  deriving DecidableEq, Repr

/-- Go `icmp.Message` with an Echo body; `Typ` is the field `Type` -/
structure Message where
  Typ : MsgType
  Code : Nat
  Body : Echo

/-- Go `ipv4.ICMPTypeEcho` -/
abbrev ICMPTypeEcho : Nat := 8
/-- Go `ipv6.ICMPTypeEchoRequest` -/
abbrev ICMPTypeEchoRequest : Nat := 128

/-- Library method `(*icmp.Echo).Marshal`: a buffer of `4 + len(Data)` bytes
is allocated and filled with identifier and sequence number as big-endian
16-bit values, then the data -/
def Echo.Marshal (mem : Nat) (p : Echo) : Except Fault (List Byte) := do
  let b ← makeSlice mem (4 + (p.Data.length : Int))
  pure (putUint16 (uint16 p.ID) ++ putUint16 (uint16 p.Seq) ++ copyBytes (b.drop 4) p.Data)

/-- The summing loop of the library function `checksum`: little-endian 16-bit
words, and the last byte alone when the length is odd, added modulo 2^32 -/
def sumWords : List Byte → Nat → Nat
  | x :: y :: rest, s => sumWords rest ((s + ((y.val <<< 8) ||| x.val)) % 2 ^ 32)
  | [x], s => (s + x.val) % 2 ^ 32
  | [], s => s

/-- Library function `checksum` of golang.org/x/net/icmp -/
def checksum (b : List Byte) : Nat :=
  let s := sumWords b 0
  let s := ((s >>> 16) + (s &&& 0xffff)) % 2 ^ 32
  let s := (s + (s >>> 16)) % 2 ^ 32
  0xffff - s % 2 ^ 16

/-- Error of `Marshal` -/
inductive MarshalError where
  | invalidProtocol
  deriving DecidableEq, Repr

/-- Library method `(*icmp.Message).Marshal(nil)`: type, code, two checksum
bytes, body. Without pseudo header the checksum is filled in for IPv4 only.
The outer `Except` is a panic, the inner one the returned `error`. -/
def Message.Marshal (mem : Nat) (m : Message) :
    Except Fault (Except MarshalError (List Byte)) :=
  match m.Typ with
  | .other => pure (.error .invalidProtocol)
  | .ipv6 t => do
    let mb ← m.Body.Marshal mem
    let b ← appendBytes mem [byteOf t, byteOf m.Code, 0, 0] mb
    pure (.ok b)
  | .ipv4 t => do
    let mb ← m.Body.Marshal mem
    let b ← appendBytes mem [byteOf t, byteOf m.Code, 0, 0] mb
    let s := checksum b
    let b := b.set 2 (b.getD 2 0 ^^^ byteOf s)
    let b := b.set 3 (b.getD 3 0 ^^^ byteOf (s >>> 8))
    pure (.ok b)

/-! ## The Echo Request builders -/

/-- Go `os.SyscallError` as returned by the builders -/
structure SyscallError where
  Syscall : String
  Err : MarshalError
  deriving DecidableEq, Repr

/-- Go `icmpV6Message`. The outer `Except` is a panic, the inner one the
returned `error` -/
def icmpV6Message (mem draw : Nat) (id seq pSize : Int) :
    Except Fault (Except SyscallError (List Byte)) := do
  let data ← icmpPayload mem draw pSize false
  let res ← Message.Marshal mem
    { Typ := .ipv6 ICMPTypeEchoRequest, Code := 0, Body := { ID := id, Seq := seq, Data := data } }
  match res with
  | .error err => pure (.error ⟨"icmpmsg", err⟩)
  | .ok m => pure (.ok m)

/-- Go `icmpV4Message` -/
def icmpV4Message (mem draw : Nat) (id seq pSize : Int) :
    Except Fault (Except SyscallError (List Byte)) := do
  let data ← icmpPayload mem draw pSize true
  let res ← Message.Marshal mem
    { Typ := .ipv4 ICMPTypeEcho, Code := 0, Body := { ID := id, Seq := seq, Data := data } }
  match res with
  | .error err => pure (.error ⟨"icmpmsg", err⟩)
  | .ok m => pure (.ok m)

/-! ## Local address discovery -/

/-- Go `strings.Split(s, sep)` for a one-character separator, on the
characters of the string: the pieces between the separators, one piece when
there is no separator -/
def splitChars (sep : Char) : List Char → List (List Char)
  | [] => [[]]
  | c :: cs =>
    if c = sep then [] :: splitChars sep cs
    else
      match splitChars sep cs with
      | [] => [[c]]
      | w :: ws => (c :: w) :: ws

/-- Go `strings.Split(s, sep)` for a one-character separator -/
def stringsSplit (s : String) (sep : Char) : List String :=
  (splitChars sep s.toList).map String.mk

/-- Go `net.JoinHostPort`: a host with a colon is put in brackets -/
def JoinHostPort (host port : String) : String :=
  if host.toList.contains ':' then "[" ++ host ++ "]:" ++ port else host ++ ":" ++ port

/-- The errors `getLocalAddr` can return: the one of `net.Dial`, or its own -/
inductive LocalAddrError where
  | dial (msg : String)
  | errorf (msg : String)
  deriving DecidableEq, Repr

/-- Go `getLocalAddr`. The network is the argument `dial`: `net.Dial` on a
network and an address, giving either an error or, for the connection made,
the string of `conn.LocalAddr()`. The library function `net.ParseIP` is the
argument `ParseIP`, the nil address being `[]`. The result is the pair
returned, `none` being the nil error. -/
def getLocalAddr (dial : String → String → Except String String) (ParseIP : String → IP)
    (rAddr : String) : IP × Option LocalAddrError :=
  match dial "udp" (JoinHostPort rAddr "80") with
  | .error err => ([], some (.dial err))
  | .ok localAddr =>
    let ip := stringsSplit localAddr ':'
    if h : ip.length < 1 then
      ([], some (.errorf "local ip addr not found"))
    else
      let lAddr := ParseIP ip[0]
      (lAddr, none)

/-! ## Header overhead -/

/-- The bytes that `icmpPayload` subtracts from the requested size: IP header
plus ICMP header of the family -/
def overhead (isIPv4 : Bool) : Int := if isIPv4 then 20 + 8 else 40 + 8

/-! ## Shapes of the decoded response -/

/-- The part of the response that the IPv4 parser fills for every type -/
def v4Base (typ code s0 s1 s2 s3 : Byte) : ICMPResp :=
  { typ := typ.val, code := code.val, src := netIPv4 s0 s1 s2 s3 }

/-- The response after the quoted header has been looked at -/
def withQuoted (resp : ICMPResp) (q : List Byte) : ICMPResp :=
  match ParseHeader q with
  | .ok h => { resp with ip := { id := h.ID, dst := h.Dst } }
  | .error _ => resp

/-- The part of the response that the IPv6 parser fills for every type -/
def v6Base (typ code : Byte) : ICMPResp :=
  { typ := typ.val, code := code.val }

/-! ## Sample datagrams -/

/-- An Echo Reply from 8.8.8.8 with identifier 0x1234 and sequence number 7 -/
def sampleEchoReplyV4 : List Byte :=
  [69, 0, 0, 28, 0, 0, 0, 0, 64, 1, 0, 0, 8, 8, 8, 8, 10, 0, 0, 1,
   0, 0, 0, 0, 18, 52, 0, 7]

/-- A Time Exceeded from router 10.0.0.254 quoting an Echo Request to 8.8.8.8
(IP identification 0xabcd, identifier 0x1234, sequence number 7) -/
def sampleTimeExceededV4 : List Byte :=
  [69, 0, 0, 56, 0, 0, 0, 0, 64, 1, 0, 0, 10, 0, 0, 254, 10, 0, 0, 1,
   11, 0, 0, 0, 0, 0, 0, 0,
   69, 0, 0, 28, 171, 205, 0, 0, 1, 1, 0, 0, 10, 0, 0, 1, 8, 8, 8, 8,
   8, 0, 0, 0, 18, 52, 0, 7]

/-- The same datagram as a Destination Unreachable -/
def sampleDestUnreachV4 : List Byte :=
  [69, 0, 0, 56, 0, 0, 0, 0, 64, 1, 0, 0, 10, 0, 0, 254, 10, 0, 0, 1,
   3, 1, 0, 0, 0, 0, 0, 0,
   69, 0, 0, 28, 171, 205, 0, 0, 1, 1, 0, 0, 10, 0, 0, 1, 8, 8, 8, 8,
   8, 0, 0, 0, 18, 52, 0, 7]

/-- An ICMPv6 Time Exceeded quoting an Echo Request from 2001:db8::1 to
2001:db8::2 (identifier 0x1234, sequence number 7) -/
def sampleTimeExceededV6 : List Byte :=
  [3, 0, 0, 0, 0, 0, 0, 0,
   96, 0, 0, 0, 0, 8, 58, 1,
   32, 1, 13, 184, 0, 0, 0, 0, 0, 0, 0, 0, 0, 0, 0, 1,
   32, 1, 13, 184, 0, 0, 0, 0, 0, 0, 0, 0, 0, 0, 0, 2,
   128, 0, 0, 0, 18, 52, 0, 7]

/-- The same message as a Destination Unreachable -/
def sampleDestUnreachV6 : List Byte :=
  [1, 4, 0, 0, 0, 0, 0, 0,
   96, 0, 0, 0, 0, 8, 58, 1,
   32, 1, 13, 184, 0, 0, 0, 0, 0, 0, 0, 0, 0, 0, 0, 1,
   32, 1, 13, 184, 0, 0, 0, 0, 0, 0, 0, 0, 0, 0, 0, 2,
   128, 0, 0, 0, 18, 52, 0, 7]

/-- An ICMPv6 Time Exceeded cut after its 8-byte header -/
def sampleShortTimeExceededV6 : List Byte := [3, 0, 0, 0, 0, 0, 0, 0]

/-- An ICMPv6 Time Exceeded cut after 44 bytes -/
def sampleCutTimeExceededV6 : List Byte := sampleTimeExceededV6.take 44

/-- An IPv4 header as a raw socket puts it before an Echo Reply from 8.8.8.8 -/
def sampleIPHeader : List Byte :=
  [69, 0, 0, 64, 0, 0, 0, 0, 64, 1, 0, 0, 8, 8, 8, 8, 10, 0, 0, 1]

/-- A Time Exceeded quoting an Echo Request whose IP header carries four
bytes of options (header length field 6) -/
def sampleTimeExceededOptsV4 : List Byte :=
  [69, 0, 0, 60, 0, 0, 0, 0, 64, 1, 0, 0, 10, 0, 0, 254, 10, 0, 0, 1,
   11, 0, 0, 0, 0, 0, 0, 0,
   70, 0, 0, 32, 171, 205, 0, 0, 1, 1, 0, 0, 10, 0, 0, 1, 8, 8, 8, 8,
   1, 1, 1, 0, 18, 52, 0, 7, 8, 0, 0, 0]

/-- The same datagram as a Destination Unreachable -/
def sampleDestUnreachOptsV4 : List Byte :=
  [69, 0, 0, 60, 0, 0, 0, 0, 64, 1, 0, 0, 10, 0, 0, 254, 10, 0, 0, 1,
   3, 1, 0, 0, 0, 0, 0, 0,
   70, 0, 0, 32, 171, 205, 0, 0, 1, 1, 0, 0, 10, 0, 0, 1, 8, 8, 8, 8,
   1, 1, 1, 0, 18, 52, 0, 7, 8, 0, 0, 0]

/-- An ICMPv6 Echo Reply with identifier 0x1234 and sequence number 7 -/
def sampleEchoReplyV6 : List Byte := [129, 0, 0, 0, 18, 52, 0, 7]

/-- An IPv4 datagram carrying an ICMP Echo Request (type 8), which is none of
the types the parser knows -/
def sampleEchoRequestV4 : List Byte :=
  [69, 0, 0, 28, 0, 0, 0, 0, 64, 1, 0, 0, 10, 0, 0, 2, 10, 0, 0, 1,
   8, 0, 0, 0, 18, 52, 0, 7]

/-- An ICMPv6 Neighbor Solicitation header (type 135) -/
def sampleNeighborSolicitV6 : List Byte := [135, 0, 0, 0, 0, 0, 0, 0]

/-- The Destination Unreachable sample cut after 47 bytes, one byte short of
the quoted header's end -/
def sampleShortDestUnreachV4 : List Byte := sampleDestUnreachV4.take 47

/-- The zero bytes behind a 47-byte datagram in a receive buffer of 512 bytes -/
def sampleSpare : List Byte := List.replicate 465 0

/-! ## Basic facts about indexing -/

/-- A successful bind has a successful first step -/
theorem bind_ok_inv {α β : Type} {x : Except Fault α} {f : α → Except Fault β} {r : β}
    (h : (x >>= f) = .ok r) : ∃ a, x = .ok a ∧ f a = .ok r := by
  cases x with
  | error e => simp [bind, Except.bind] at h
  | ok a => exact ⟨a, rfl, h⟩

theorem idx_of_lt {b : List Byte} {i : Nat} (h : i < b.length) : idx b i = .ok b[i] := by
  simp [idx, List.getElem?_eq_getElem h]

theorem idx_of_le {b : List Byte} {i : Nat} (h : b.length ≤ i) :
    idx b i = .error .indexOutOfRange := by
  simp [idx, List.getElem?_eq_none h]

theorem slice_of_le {b spare : List Byte} {lo hi : Nat} (h1 : lo ≤ hi) (h2 : hi ≤ b.length) :
    slice b spare lo hi = .ok ((b.take hi).drop lo) := by
  have h3 : hi ≤ b.length + spare.length := by omega
  simp [slice, h1, h3, List.take_append_of_le_length h2]

theorem slice_of_cap {b spare : List Byte} {lo hi : Nat} (h1 : lo ≤ hi)
    (h2 : hi ≤ b.length + spare.length) :
    slice b spare lo hi = .ok (((b ++ spare).take hi).drop lo) := by
  simp [slice, h1, h2]

theorem slice_of_lt {b spare : List Byte} {lo hi : Nat} (h : b.length + spare.length < hi) :
    slice b spare lo hi = .error .sliceOutOfRange := by
  have : ¬ (lo ≤ hi ∧ hi ≤ b.length + spare.length) := by omega
  simp [slice, this]

/-- The Go expression `int(x)<<8 | int(y)` on two bytes is the big-endian
16-bit value -/
theorem shl8_or (x y : Byte) : (x.val <<< 8) ||| y.val = 256 * x.val + y.val := by
  have hy : y.val < 2 ^ 8 := y.isLt
  have h := Nat.mul_add_lt_is_or hy x.val
  rw [Nat.shiftLeft_eq, Nat.mul_comm, ← h]

/-! ## What the parsers return, case by case -/

/-- The full response for an IPv4 Echo Reply of at least 28 bytes -/
theorem v4_echoReply_eq (b : List Byte) {spare : List Byte} (hlen : 28 ≤ b.length) (ht : b[20] = 0) :
    icmpV4RespParser b spare = .ok { v4Base b[20] b[21] b[12] b[13] b[14] b[15] with
      id := 256 * b[24].val + b[25].val, seq := 256 * b[26].val + b[27].val } := by
  have hv : b[20].val = 0 := by rw [ht]; rfl
  simp [icmpV4RespParser, hv, v4Base, idx_of_lt (show 20 < b.length by omega),
    idx_of_lt (show 21 < b.length by omega),
    idx_of_lt (show 12 < b.length by omega), idx_of_lt (show 13 < b.length by omega),
    idx_of_lt (show 14 < b.length by omega), idx_of_lt (show 15 < b.length by omega),
    idx_of_lt (show 24 < b.length by omega), idx_of_lt (show 25 < b.length by omega),
    idx_of_lt (show 26 < b.length by omega), idx_of_lt (show 27 < b.length by omega),
    bind, Except.bind, pure, Except.pure, shl8_or]

/-- The full response for an IPv4 Destination Unreachable of at least 48 bytes -/
theorem v4_destUnreach_eq (b : List Byte) {spare : List Byte} (hlen : 48 ≤ b.length) (ht : b[20] = 3) :
    icmpV4RespParser b spare = .ok (withQuoted (v4Base b[20] b[21] b[12] b[13] b[14] b[15])
      ((b.take 48).drop 28)) := by
  have hv : b[20].val = 3 := by rw [ht]; rfl
  simp only [icmpV4RespParser, hv, v4Base, idx_of_lt (show 20 < b.length by omega),
    idx_of_lt (show 21 < b.length by omega),
    idx_of_lt (show 12 < b.length by omega), idx_of_lt (show 13 < b.length by omega),
    idx_of_lt (show 14 < b.length by omega), idx_of_lt (show 15 < b.length by omega),
    slice_of_le (show 28 ≤ 48 by omega) hlen,
    bind, Except.bind, pure, Except.pure, withQuoted]
  cases ParseHeader (List.drop 28 (List.take 48 b)) <;> simp [hv]

/-- The full response for an IPv4 Destination Unreachable whose quoted header
lies within the capacity: the bytes behind the datagram's end are read as
part of it -/
theorem v4_destUnreach_cap_eq (b : List Byte) {spare : List Byte} (hlen : 22 ≤ b.length)
    (hcap : 48 ≤ b.length + spare.length) (ht : b[20] = 3) :
    icmpV4RespParser b spare = .ok (withQuoted (v4Base b[20] b[21] b[12] b[13] b[14] b[15])
      (((b ++ spare).take 48).drop 28)) := by
  have hv : b[20].val = 3 := by rw [ht]; rfl
  simp only [icmpV4RespParser, hv, v4Base, idx_of_lt (show 20 < b.length by omega),
    idx_of_lt (show 21 < b.length by omega),
    idx_of_lt (show 12 < b.length by omega), idx_of_lt (show 13 < b.length by omega),
    idx_of_lt (show 14 < b.length by omega), idx_of_lt (show 15 < b.length by omega),
    slice_of_cap (show 28 ≤ 48 by omega) hcap,
    bind, Except.bind, pure, Except.pure, withQuoted]
  cases ParseHeader (List.drop 28 (List.take 48 (b ++ spare))) <;> simp [hv]

/-- The full response for an IPv4 Time Exceeded of at least 56 bytes -/
theorem v4_timeExceeded_eq (b : List Byte) {spare : List Byte} (hlen : 56 ≤ b.length) (ht : b[20] = 11) :
    icmpV4RespParser b spare = .ok (withQuoted
      { v4Base b[20] b[21] b[12] b[13] b[14] b[15] with
        id := 256 * b[52].val + b[53].val, seq := 256 * b[54].val + b[55].val }
      ((b.take 48).drop 28)) := by
  have hv : b[20].val = 11 := by rw [ht]; rfl
  simp only [icmpV4RespParser, hv, v4Base, idx_of_lt (show 20 < b.length by omega),
    idx_of_lt (show 21 < b.length by omega),
    idx_of_lt (show 12 < b.length by omega), idx_of_lt (show 13 < b.length by omega),
    idx_of_lt (show 14 < b.length by omega), idx_of_lt (show 15 < b.length by omega),
    idx_of_lt (show 52 < b.length by omega), idx_of_lt (show 53 < b.length by omega),
    idx_of_lt (show 54 < b.length by omega), idx_of_lt (show 55 < b.length by omega),
    slice_of_le (show 28 ≤ 48 by omega) (show 48 ≤ b.length by omega),
    bind, Except.bind, pure, Except.pure, withQuoted, shl8_or]
  cases ParseHeader (List.drop 28 (List.take 48 b)) <;> simp [hv]

/-- The full response for an IPv4 datagram of any other type -/
theorem v4_other_eq (b : List Byte) {spare : List Byte} (hlen : 22 ≤ b.length)
    (h0 : b[20] ≠ 0) (h3 : b[20] ≠ 3) (h11 : b[20] ≠ 11) :
    icmpV4RespParser b spare = .ok (v4Base b[20] b[21] b[12] b[13] b[14] b[15]) := by
  have e0 : ¬ (b[20].val = 0) := fun h => h0 (Fin.ext h)
  have e3 : ¬ (b[20].val = 3) := fun h => h3 (Fin.ext h)
  have e11 : ¬ (b[20].val = 11) := fun h => h11 (Fin.ext h)
  simp [icmpV4RespParser, v4Base, idx_of_lt (show 20 < b.length by omega),
    idx_of_lt (show 21 < b.length by omega),
    idx_of_lt (show 12 < b.length by omega), idx_of_lt (show 13 < b.length by omega),
    idx_of_lt (show 14 < b.length by omega), idx_of_lt (show 15 < b.length by omega),
    bind, Except.bind, pure, Except.pure, e0, e3, e11]

/-- The full response for an IPv6 Time Exceeded of 2 to 43 bytes -/
theorem v6_shortTimeExceeded_eq (b : List Byte) {spare : List Byte} (h2 : 2 ≤ b.length) (h44 : b.length < 44)
    (ht : b[0] = 3) : icmpV6RespParser b spare = .ok (v6Base b[0] b[1]) := by
  have hv : b[0].val = 3 := by rw [ht]; rfl
  simp [icmpV6RespParser, hv, v6Base, idx_of_lt (show 0 < b.length by omega),
    idx_of_lt (show 1 < b.length by omega), bind, Except.bind, pure, Except.pure, h44]

/-- The full response for an IPv6 Echo Reply of at least 8 bytes -/
theorem v6_echoReply_eq (b : List Byte) {spare : List Byte} (hlen : 8 ≤ b.length) (ht : b[0] = 129) :
    icmpV6RespParser b spare = .ok { v6Base b[0] b[1] with
      id := 256 * b[4].val + b[5].val, seq := 256 * b[6].val + b[7].val } := by
  have hv : b[0].val = 129 := by rw [ht]; rfl
  simp [icmpV6RespParser, hv, v6Base, idx_of_lt (show 0 < b.length by omega),
    idx_of_lt (show 1 < b.length by omega), idx_of_lt (show 4 < b.length by omega),
    idx_of_lt (show 5 < b.length by omega), idx_of_lt (show 6 < b.length by omega),
    idx_of_lt (show 7 < b.length by omega), bind, Except.bind, pure, Except.pure, shl8_or]

/-- The full response for an IPv6 Destination Unreachable of at least 48 bytes -/
theorem v6_destUnreach_eq (b : List Byte) {spare : List Byte} (hlen : 48 ≤ b.length) (ht : b[0] = 1) :
    icmpV6RespParser b spare = .ok { v6Base b[0] b[1] with
      ip := { dst := bytesToIPv6 ((b.take 48).drop 32) } } := by
  have hv : b[0].val = 1 := by rw [ht]; rfl
  simp [icmpV6RespParser, hv, v6Base, idx_of_lt (show 0 < b.length by omega),
    idx_of_lt (show 1 < b.length by omega), slice_of_le (show 32 ≤ 48 by omega) hlen,
    bind, Except.bind, pure, Except.pure]

/-- The full response for an IPv6 Time Exceeded of at least 56 bytes -/
theorem v6_timeExceeded_eq (b : List Byte) {spare : List Byte} (hlen : 56 ≤ b.length) (ht : b[0] = 3) :
    icmpV6RespParser b spare = .ok { v6Base b[0] b[1] with
      id := 256 * b[52].val + b[53].val, seq := 256 * b[54].val + b[55].val,
      ip := { dst := bytesToIPv6 ((b.take 48).drop 32) } } := by
  have hv : b[0].val = 3 := by rw [ht]; rfl
  have h44 : ¬ b.length < 44 := by omega
  simp [icmpV6RespParser, hv, v6Base, h44, idx_of_lt (show 0 < b.length by omega),
    idx_of_lt (show 1 < b.length by omega), idx_of_lt (show 52 < b.length by omega),
    idx_of_lt (show 53 < b.length by omega), idx_of_lt (show 54 < b.length by omega),
    idx_of_lt (show 55 < b.length by omega),
    slice_of_le (show 32 ≤ 48 by omega) (show 48 ≤ b.length by omega),
    bind, Except.bind, pure, Except.pure, shl8_or]

/-- The full response for an IPv6 message of any other type -/
theorem v6_other_eq (b : List Byte) {spare : List Byte} (hlen : 2 ≤ b.length)
    (h129 : b[0] ≠ 129) (h1 : b[0] ≠ 1) (h3 : b[0] ≠ 3) :
    icmpV6RespParser b spare = .ok (v6Base b[0] b[1]) := by
  have e129 : ¬ (b[0].val = 129) := fun h => h129 (Fin.ext h)
  have e1 : ¬ (b[0].val = 1) := fun h => h1 (Fin.ext h)
  have e3 : ¬ (b[0].val = 3) := fun h => h3 (Fin.ext h)
  simp [icmpV6RespParser, v6Base, idx_of_lt (show 0 < b.length by omega),
    idx_of_lt (show 1 < b.length by omega), bind, Except.bind, pure, Except.pure, e129, e1, e3]

/-- The quoted destination produced by `bytesToIPv6` on a 16-byte slice is
that slice -/
theorem bytesToIPv6_of_length {q : List Byte} (h : q.length = 16) : bytesToIPv6 q = q := by
  simp [bytesToIPv6, copyBytes, makeBytes, h, List.take_of_length_le]

theorem bytesToIPv6_length (q : List Byte) : (bytesToIPv6 q).length = 16 := by
  simp [bytesToIPv6, copyBytes, makeBytes]

theorem withQuoted_id (r : ICMPResp) (q : List Byte) : (withQuoted r q).id = r.id := by
  unfold withQuoted; cases ParseHeader q <;> rfl

theorem withQuoted_seq (r : ICMPResp) (q : List Byte) : (withQuoted r q).seq = r.seq := by
  unfold withQuoted; cases ParseHeader q <;> rfl

/-! ## Payload sizing and marshalling -/

theorem wrapInt_of_isInt {x : Int} (h : IsInt x) : wrapInt x = x := by
  unfold IsInt at h
  unfold wrapInt
  omega

/-- The two bytes written for a 16-bit value decode back to it -/
theorem putUint16_decode (x : Int) (h0 : 0 ≤ x) (h1 : x < 65536) :
    ((256 * (byteOf (uint16 x >>> 8)).val + (byteOf (uint16 x)).val : Nat) : Int) = x := by
  simp only [byteOf, uint16, Nat.shiftRight_eq_div_pow]
  omega

theorem idx_append_left {h l : List Byte} {i : Nat} (hi : i < h.length) :
    idx (h ++ l) i = .ok (h.get ⟨i, hi⟩) := by
  simp [idx, List.getElem?_append_left hi, List.getElem?_eq_getElem hi]

theorem idx_append_right {h l : List Byte} {n i : Nat} (hn : h.length = n) (hi : n ≤ i) :
    idx (h ++ l) i = idx l (i - n) := by
  subst hn
  simp [idx, List.getElem?_append_right hi]

/-- The IPv4 parser on a 20-byte header followed by an Echo Reply -/
theorem v4_parse_reply (hdr spare : List Byte) (hhdr : hdr.length = 20)
    (c c2 c3 i0 i1 q0 q1 : Byte) (data : List Byte) :
    ∃ r, icmpV4RespParser (hdr ++ 0 :: c :: c2 :: c3 :: i0 :: i1 :: q0 :: q1 :: data) spare = .ok r ∧
      r.id = 256 * i0.val + i1.val ∧ r.seq = 256 * q0.val + q1.val := by
  have e20 : idx (hdr ++ 0 :: c :: c2 :: c3 :: i0 :: i1 :: q0 :: q1 :: data) 20 = .ok 0 := by
    rw [idx_append_right hhdr (by omega)]; simp [idx]
  have e21 : idx (hdr ++ 0 :: c :: c2 :: c3 :: i0 :: i1 :: q0 :: q1 :: data) 21 = .ok c := by
    rw [idx_append_right hhdr (by omega)]; simp [idx]
  have e24 : idx (hdr ++ 0 :: c :: c2 :: c3 :: i0 :: i1 :: q0 :: q1 :: data) 24 = .ok i0 := by
    rw [idx_append_right hhdr (by omega)]; simp [idx]
  have e25 : idx (hdr ++ 0 :: c :: c2 :: c3 :: i0 :: i1 :: q0 :: q1 :: data) 25 = .ok i1 := by
    rw [idx_append_right hhdr (by omega)]; simp [idx]
  have e26 : idx (hdr ++ 0 :: c :: c2 :: c3 :: i0 :: i1 :: q0 :: q1 :: data) 26 = .ok q0 := by
    rw [idx_append_right hhdr (by omega)]; simp [idx]
  have e27 : idx (hdr ++ 0 :: c :: c2 :: c3 :: i0 :: i1 :: q0 :: q1 :: data) 27 = .ok q1 := by
    rw [idx_append_right hhdr (by omega)]; simp [idx]
  simp [icmpV4RespParser, e20, e21, e24, e25, e26, e27,
    idx_append_left (show 12 < hdr.length by omega), idx_append_left (show 13 < hdr.length by omega),
    idx_append_left (show 14 < hdr.length by omega), idx_append_left (show 15 < hdr.length by omega),
    bind, Except.bind, pure, Except.pure, shl8_or]

/-- The IPv6 parser on an Echo Reply -/
theorem v6_parse_reply (spare : List Byte) (c c2 c3 i0 i1 q0 q1 : Byte)
    (data : List Byte) :
    ∃ r, icmpV6RespParser (129 :: c :: c2 :: c3 :: i0 :: i1 :: q0 :: q1 :: data) spare = .ok r ∧
      r.id = 256 * i0.val + i1.val ∧ r.seq = 256 * q0.val + q1.val := by
  have hv : ((129 : Byte) : Nat) = 129 := rfl
  simp [icmpV6RespParser, idx, bind, Except.bind, pure, Except.pure, shl8_or, hv]

/-- For a negative size whose magnitude exceeds the overhead, the number
handed to `rand.Intn` is `-size - overhead`, also at the least `int` -/
theorem gData_of_neg (size : Int) (hneg : size < 0) (hmin : -(2 ^ 63) ≤ size) (k : Int)
    (hk0 : 0 < k) (hk : k ≤ 48) (hbig : k < -size) :
    wrapInt (wrapInt (size * -1) - k) = -size - k := by
  unfold wrapInt
  omega

/-! ## Allocation -/

theorem makeSlice_of_fits {mem : Nat} {n : Int} (h0 : 0 ≤ n) (hm : n ≤ mem)
    (hx : n ≤ maxAlloc) : makeSlice mem n = .ok (makeBytes n.toNat) := by
  have h1 : ¬ (n < 0 ∨ (maxAlloc : Int) < n) := by omega
  have h2 : ¬ ((mem : Int) < n) := by omega
  simp [makeSlice, h1, h2]

theorem makeSlice_ok_inv {mem : Nat} {n : Int} {b : List Byte} (h : makeSlice mem n = .ok b) :
    0 ≤ n ∧ n ≤ mem ∧ n ≤ maxAlloc ∧ b = makeBytes n.toNat := by
  unfold makeSlice at h
  split at h
  · simp at h
  · split at h
    · simp at h
    · simp only [Except.ok.injEq] at h
      refine ⟨by omega, by omega, by omega, h.symm⟩

/-- Above the runtime's bound `make` panics whatever memory there is -/
theorem makeSlice_of_gt_maxAlloc (mem : Nat) {n : Int} (h : (maxAlloc : Int) < n) :
    makeSlice mem n = .error .makeLenOutOfRange := by
  simp [makeSlice, h]

theorem copyBytes_of_length_eq {dst src : List Byte} (h : dst.length = src.length) :
    copyBytes dst src = src := by
  simp [copyBytes, h]

/-! ## Payload sizing -/

/-- For a non-negative size `icmpPayload` makes `size - overhead` bytes, none
when that is negative -/
theorem icmpPayload_of_nonneg (mem draw : Nat) (size : Int) (isIPv4 : Bool)
    (h0 : 0 ≤ size) (hmax : size < 2 ^ 63) :
    icmpPayload mem draw size isIPv4 =
      makeSlice mem ((size - overhead isIPv4).toNat : Nat) := by
  have hn : ¬ size < 0 := by omega
  have w28 : wrapInt (size - 28) = size - 28 := wrapInt_of_isInt (by unfold IsInt; omega)
  have w48 : wrapInt (size - 48) = size - 48 := wrapInt_of_isInt (by unfold IsInt; omega)
  cases isIPv4
  · by_cases hc : size - 48 < 0
    · have e : (size - 48).toNat = 0 := by omega
      simp [icmpPayload, absInt, hn, w48, hc, h0, overhead, e]
    · have hc2 : ¬ size - 48 < 0 := hc
      have e : ((size - 48).toNat : Int) = size - 48 := by omega
      simp [icmpPayload, absInt, hn, w48, hc2, h0, overhead, e]
  · by_cases hc : size - 28 < 0
    · have e : (size - 28).toNat = 0 := by omega
      simp [icmpPayload, absInt, hn, w28, hc, h0, overhead, e]
    · have hc2 : ¬ size - 28 < 0 := hc
      have e : ((size - 28).toNat : Int) = size - 28 := by omega
      simp [icmpPayload, absInt, hn, w28, hc2, h0, overhead, e]

/-- For a negative size whose magnitude exceeds the overhead `icmpPayload`
makes `draw mod (-size - overhead)` bytes -/
theorem icmpPayload_of_neg (mem draw : Nat) (size : Int) (isIPv4 : Bool)
    (hneg : size < 0) (hmin : -(2 ^ 63) ≤ size) (hbig : overhead isIPv4 < -size) :
    icmpPayload mem draw size isIPv4 =
      makeSlice mem ((draw : Int) % (-size - overhead isIPv4)) := by
  have hs : ¬ (size ≥ 0) := by omega
  cases isIPv4
  · have hb : (48 : Int) < -size := by simpa [overhead] using hbig
    have g := gData_of_neg size hneg hmin 48 (by norm_num) (by norm_num) hb
    have h1 : ¬ (-size - 48 < 0) := by omega
    have h2 : ¬ (-size - 48 ≤ 0) := by omega
    simp only [icmpPayload, absInt, hneg, hs, if_true, if_false, Bool.false_eq_true,
      show ((40 : Int) + 8) = 48 by norm_num, g, h1, h2, randIntn, overhead,
      bind, Except.bind]
  · have hb : (28 : Int) < -size := by simpa [overhead] using hbig
    have g := gData_of_neg size hneg hmin 28 (by norm_num) (by norm_num) hb
    have h1 : ¬ (-size - 28 < 0) := by omega
    have h2 : ¬ (-size - 28 ≤ 0) := by omega
    simp only [icmpPayload, absInt, hneg, hs, if_true, if_false,
      show ((20 : Int) + 8) = 28 by norm_num, g, h1, h2, randIntn, overhead,
      bind, Except.bind]

/-- For a negative size of magnitude at most the overhead the computed length
is clamped to 0 and `rand.Intn` panics -/
theorem icmpPayload_small_neg (mem draw : Nat) (size : Int) (isIPv4 : Bool)
    (hneg : size < 0) (hsmall : -overhead isIPv4 ≤ size) :
    icmpPayload mem draw size isIPv4 = .error .intnNonPositive := by
  have hs : ¬ (size ≥ 0) := by omega
  have hov : overhead isIPv4 ≤ 48 := by cases isIPv4 <;> simp [overhead]
  have hw : wrapInt (-size) = -size := wrapInt_of_isInt (by unfold IsInt; omega)
  cases isIPv4
  · have h : -48 ≤ size := by simpa [overhead] using hsmall
    have g : wrapInt (-size - 48) = -size - 48 := wrapInt_of_isInt (by unfold IsInt; omega)
    by_cases hc : -size - 48 < 0
    · simp [icmpPayload, absInt, hneg, hs, hw, g, hc, randIntn, bind, Except.bind]
    · have h0 : -size - 48 ≤ 0 := by omega
      simp [icmpPayload, absInt, hneg, hs, hw, g, hc, h0, randIntn, bind, Except.bind]
  · have h : -28 ≤ size := by simpa [overhead] using hsmall
    have g : wrapInt (-size - 28) = -size - 28 := wrapInt_of_isInt (by unfold IsInt; omega)
    by_cases hc : -size - 28 < 0
    · simp [icmpPayload, absInt, hneg, hs, hw, g, hc, randIntn, bind, Except.bind]
    · have h0 : -size - 28 ≤ 0 := by omega
      simp [icmpPayload, absInt, hneg, hs, hw, g, hc, h0, randIntn, bind, Except.bind]

/-! ## Marshalling -/

theorem echoMarshal_ok_inv {mem : Nat} {p : Echo} {mb : List Byte}
    (h : Echo.Marshal mem p = .ok mb) :
    mb = putUint16 (uint16 p.ID) ++ putUint16 (uint16 p.Seq) ++ p.Data := by
  unfold Echo.Marshal at h
  obtain ⟨b, hb, h⟩ := bind_ok_inv h
  obtain ⟨_, _, _, rfl⟩ := makeSlice_ok_inv hb
  simp only [pure, Except.pure, Except.ok.injEq] at h
  rw [← h, copyBytes_of_length_eq]
  simp only [makeBytes, List.length_drop, List.length_replicate]
  omega

theorem echoMarshal_of_fits (mem : Nat) (p : Echo) (hm : 4 + p.Data.length ≤ mem)
    (hx : 4 + p.Data.length ≤ maxAlloc) :
    Echo.Marshal mem p =
      .ok (putUint16 (uint16 p.ID) ++ putUint16 (uint16 p.Seq) ++ p.Data) := by
  have hb : makeSlice mem (4 + (p.Data.length : Int)) =
      .ok (makeBytes (4 + (p.Data.length : Int)).toNat) :=
    makeSlice_of_fits (by omega) (by omega) (by omega)
  have hc : copyBytes ((makeBytes (4 + (p.Data.length : Int)).toNat).drop 4) p.Data = p.Data := by
    apply copyBytes_of_length_eq
    simp only [makeBytes, List.length_drop, List.length_replicate]
    omega
  simp only [Echo.Marshal, hb, bind, Except.bind, pure, Except.pure, hc]

theorem appendBytes_ok_inv {mem : Nat} {b mb x : List Byte}
    (h : appendBytes mem b mb = .ok x) : x = b ++ mb := by
  unfold appendBytes at h
  obtain ⟨_, _, h⟩ := bind_ok_inv h
  simp only [pure, Except.pure, Except.ok.injEq] at h
  exact h.symm

theorem appendBytes_of_fits (mem : Nat) (b mb : List Byte) (hm : b.length + mb.length ≤ mem)
    (hx : b.length + mb.length ≤ maxAlloc) : appendBytes mem b mb = .ok (b ++ mb) := by
  have hb : makeSlice mem ((b.length : Int) + (mb.length : Int)) =
      .ok (makeBytes ((b.length : Int) + (mb.length : Int)).toNat) :=
    makeSlice_of_fits (by omega) (by omega) (by omega)
  simp only [appendBytes, hb, bind, Except.bind, pure, Except.pure]

/-- The layout of every marshalled IPv4 Echo message: type, code, two checksum
bytes, identifier, sequence number, data -/
theorem marshal_v4_ok_inv {mem t : Nat} {id seq : Int} {data : List Byte}
    {x : Except MarshalError (List Byte)}
    (h : Message.Marshal mem
      { Typ := .ipv4 t, Code := 0, Body := { ID := id, Seq := seq, Data := data } } = .ok x) :
    ∃ c2 c3 : Byte, x = .ok (byteOf t :: byteOf 0 :: c2 :: c3 ::
      byteOf (uint16 id >>> 8) :: byteOf (uint16 id) ::
      byteOf (uint16 seq >>> 8) :: byteOf (uint16 seq) :: data) := by
  simp only [Message.Marshal] at h
  obtain ⟨mb, hmb, h⟩ := bind_ok_inv h
  obtain ⟨b, hb, h⟩ := bind_ok_inv h
  have e1 := echoMarshal_ok_inv hmb
  have e2 := appendBytes_ok_inv hb
  simp only at e1
  subst e1
  subst e2
  simp only [pure, Except.pure, Except.ok.injEq, putUint16, List.cons_append, List.nil_append,
    List.set_cons_succ, List.set_cons_zero] at h
  exact ⟨_, _, h.symm⟩

/-- The layout of every marshalled IPv6 Echo message; the checksum bytes stay 0 -/
theorem marshal_v6_ok_inv {mem t : Nat} {id seq : Int} {data : List Byte}
    {x : Except MarshalError (List Byte)}
    (h : Message.Marshal mem
      { Typ := .ipv6 t, Code := 0, Body := { ID := id, Seq := seq, Data := data } } = .ok x) :
    x = .ok (byteOf t :: byteOf 0 :: 0 :: 0 ::
      byteOf (uint16 id >>> 8) :: byteOf (uint16 id) ::
      byteOf (uint16 seq >>> 8) :: byteOf (uint16 seq) :: data) := by
  simp only [Message.Marshal] at h
  obtain ⟨mb, hmb, h⟩ := bind_ok_inv h
  obtain ⟨b, hb, h⟩ := bind_ok_inv h
  have e1 := echoMarshal_ok_inv hmb
  have e2 := appendBytes_ok_inv hb
  simp only at e1
  subst e1
  subst e2
  simp only [pure, Except.pure, Except.ok.injEq, putUint16, List.cons_append,
    List.nil_append] at h
  exact h.symm

/-- Marshalling succeeds when the message of `8 + len(data)` bytes can be
allocated -/
theorem marshal_of_fits (mem : Nat) (ty : MsgType) (hty : ty ≠ .other) (id seq : Int)
    (data : List Byte) (hm : 8 + data.length ≤ mem) (hx : 8 + data.length ≤ maxAlloc) :
    ∃ m, Message.Marshal mem
      { Typ := ty, Code := 0, Body := { ID := id, Seq := seq, Data := data } } = .ok (.ok m) := by
  have he := echoMarshal_of_fits mem { ID := id, Seq := seq, Data := data }
    (by simp only; omega) (by simp only; omega)
  have hl : (putUint16 (uint16 id) ++ putUint16 (uint16 seq) ++ data).length =
      4 + data.length := by simp [putUint16]; omega
  cases ty with
  | other => exact absurd rfl hty
  | ipv4 t =>
    have ha := appendBytes_of_fits mem [byteOf t, byteOf 0, 0, 0]
      (putUint16 (uint16 id) ++ putUint16 (uint16 seq) ++ data)
      (by rw [hl]; simp only [List.length_cons, List.length_nil]; omega)
      (by rw [hl]; simp only [List.length_cons, List.length_nil]; omega)
    simp only at he
    simp only [Message.Marshal, he, ha, bind, Except.bind, pure, Except.pure]
    exact ⟨_, rfl⟩
  | ipv6 t =>
    have ha := appendBytes_of_fits mem [byteOf t, byteOf 0, 0, 0]
      (putUint16 (uint16 id) ++ putUint16 (uint16 seq) ++ data)
      (by rw [hl]; simp only [List.length_cons, List.length_nil]; omega)
      (by rw [hl]; simp only [List.length_cons, List.length_nil]; omega)
    simp only at he
    simp only [Message.Marshal, he, ha, bind, Except.bind, pure, Except.pure]
    exact ⟨_, rfl⟩

/-! ## The Echo Request builders -/

/-- The bytes of every IPv4 Echo Request the builder returns -/
theorem icmpV4Message_ok_inv {mem draw : Nat} {id seq size : Int} {m : List Byte}
    (h : icmpV4Message mem draw id seq size = .ok (.ok m)) :
    ∃ (c2 c3 : Byte) (data : List Byte), m = byteOf 8 :: byteOf 0 :: c2 :: c3 ::
      byteOf (uint16 id >>> 8) :: byteOf (uint16 id) ::
      byteOf (uint16 seq >>> 8) :: byteOf (uint16 seq) :: data := by
  unfold icmpV4Message at h
  obtain ⟨data, _, h⟩ := bind_ok_inv h
  obtain ⟨res, hres, h⟩ := bind_ok_inv h
  obtain ⟨c2, c3, rfl⟩ := marshal_v4_ok_inv hres
  simp only [pure, Except.pure, Except.ok.injEq] at h
  exact ⟨c2, c3, data, h.symm⟩

/-- The bytes of every IPv6 Echo Request the builder returns -/
theorem icmpV6Message_ok_inv {mem draw : Nat} {id seq size : Int} {m : List Byte}
    (h : icmpV6Message mem draw id seq size = .ok (.ok m)) :
    ∃ data : List Byte, m = byteOf 128 :: byteOf 0 :: 0 :: 0 ::
      byteOf (uint16 id >>> 8) :: byteOf (uint16 id) ::
      byteOf (uint16 seq >>> 8) :: byteOf (uint16 seq) :: data := by
  unfold icmpV6Message at h
  obtain ⟨data, _, h⟩ := bind_ok_inv h
  obtain ⟨res, hres, h⟩ := bind_ok_inv h
  have e := marshal_v6_ok_inv hres
  subst e
  simp only [pure, Except.pure, Except.ok.injEq] at h
  exact ⟨data, h.symm⟩

/-- The builders return a message for a non-negative size when the message of
`max(0, size - overhead) + 8` bytes can be allocated -/
theorem icmpMessage_of_fits (mem draw : Nat) (id seq size : Int) (isIPv4 : Bool)
    (h0 : 0 ≤ size) (hm : (size - overhead isIPv4).toNat + 8 ≤ mem)
    (hx : (size - overhead isIPv4).toNat + 8 ≤ maxAlloc) :
    ∃ m, (if isIPv4 = true then icmpV4Message mem draw id seq size
      else icmpV6Message mem draw id seq size) = .ok (.ok m) := by
  have hmaxA : maxAlloc = 2 ^ 48 := rfl
  have hov : overhead isIPv4 ≤ 48 := by cases isIPv4 <;> simp [overhead]
  have hs : size < 2 ^ 63 := by omega
  have hp := icmpPayload_of_nonneg mem draw size isIPv4 h0 hs
  rw [makeSlice_of_fits (Int.natCast_nonneg _) (by omega) (by omega)] at hp
  simp only [Int.toNat_ofNat] at hp
  have hlen : (makeBytes (size - overhead isIPv4).toNat).length =
      (size - overhead isIPv4).toNat := by simp [makeBytes]
  cases isIPv4
  · obtain ⟨m, hmar⟩ := marshal_of_fits mem (.ipv6 ICMPTypeEchoRequest)
      (by simp) id seq (makeBytes (size - overhead false).toNat)
      (by rw [hlen]; omega) (by rw [hlen]; omega)
    exact ⟨m, by simp only [icmpV6Message, hp, hmar, bind, Except.bind, pure, Except.pure,
      Bool.false_eq_true, if_false]⟩
  · obtain ⟨m, hmar⟩ := marshal_of_fits mem (.ipv4 ICMPTypeEcho)
      (by simp) id seq (makeBytes (size - overhead true).toNat)
      (by rw [hlen]; omega) (by rw [hlen]; omega)
    exact ⟨m, by simp only [icmpV4Message, hp, hmar, bind, Except.bind, pure, Except.pure,
      if_true]⟩

/-! ## Inversion: what a returned response tells about the datagram -/

/-- An index expression that succeeds reads an element of the list -/
theorem idx_ok_iff {b : List Byte} {i : Nat} {x : Byte} : idx b i = .ok x ↔ b[i]? = some x := by
  unfold idx
  cases b[i]? <;> simp

theorem lt_of_getElem?_some {b : List Byte} {i : Nat} {x : Byte} (h : b[i]? = some x) :
    i < b.length := by
  obtain ⟨hi, _⟩ := List.getElem?_eq_some.mp h
  exact hi

/-- A slice expression that succeeds lies within the capacity -/
theorem slice_ok_inv {b spare q : List Byte} {lo hi : Nat} (h : slice b spare lo hi = .ok q) :
    hi ≤ b.length + spare.length ∧ q = ((b ++ spare).take hi).drop lo := by
  unfold slice at h
  split at h
  · rename_i hc
    simp only [Except.ok.injEq] at h
    exact ⟨hc.2, h.symm⟩
  · simp at h

/-- Every response of the IPv4 parser has one of four shapes, decided by the
type byte -/
theorem v4_ok_inv {b spare : List Byte} {r : ICMPResp} (h : icmpV4RespParser b spare = .ok r) :
    ∃ t c s0 s1 s2 s3 : Byte,
      b[20]? = some t ∧ b[21]? = some c ∧ b[12]? = some s0 ∧ b[13]? = some s1 ∧
      b[14]? = some s2 ∧ b[15]? = some s3 ∧
      ((t = 0 ∧ ∃ i0 i1 q0 q1 : Byte,
          b[24]? = some i0 ∧ b[25]? = some i1 ∧ b[26]? = some q0 ∧ b[27]? = some q1 ∧
          r = { v4Base t c s0 s1 s2 s3 with
            id := 256 * i0.val + i1.val, seq := 256 * q0.val + q1.val }) ∨
       (t = 3 ∧ 48 ≤ b.length + spare.length ∧
          r = withQuoted (v4Base t c s0 s1 s2 s3) (((b ++ spare).take 48).drop 28)) ∨
       (t = 11 ∧ 48 ≤ b.length + spare.length ∧ ∃ i0 i1 q0 q1 : Byte,
          b[52]? = some i0 ∧ b[53]? = some i1 ∧ b[54]? = some q0 ∧ b[55]? = some q1 ∧
          r = withQuoted { v4Base t c s0 s1 s2 s3 with
            id := 256 * i0.val + i1.val, seq := 256 * q0.val + q1.val }
            (((b ++ spare).take 48).drop 28)) ∨
       (t ≠ 0 ∧ t ≠ 3 ∧ t ≠ 11 ∧ r = v4Base t c s0 s1 s2 s3)) := by
  unfold icmpV4RespParser at h
  obtain ⟨t, h20, h⟩ := bind_ok_inv h
  obtain ⟨c, h21, h⟩ := bind_ok_inv h
  obtain ⟨s0, h12, h⟩ := bind_ok_inv h
  obtain ⟨s1, h13, h⟩ := bind_ok_inv h
  obtain ⟨s2, h14, h⟩ := bind_ok_inv h
  obtain ⟨s3, h15, h⟩ := bind_ok_inv h
  refine ⟨t, c, s0, s1, s2, s3, idx_ok_iff.mp h20, idx_ok_iff.mp h21, idx_ok_iff.mp h12,
    idx_ok_iff.mp h13, idx_ok_iff.mp h14, idx_ok_iff.mp h15, ?_⟩
  simp only at h
  by_cases c0 : t.val = 0
  · have e0 : t = 0 := Fin.ext c0
    rw [if_pos c0] at h
    obtain ⟨i0, h24, h⟩ := bind_ok_inv h
    obtain ⟨i1, h25, h⟩ := bind_ok_inv h
    obtain ⟨q0, h26, h⟩ := bind_ok_inv h
    obtain ⟨q1, h27, h⟩ := bind_ok_inv h
    refine Or.inl ⟨e0, i0, i1, q0, q1, idx_ok_iff.mp h24, idx_ok_iff.mp h25,
      idx_ok_iff.mp h26, idx_ok_iff.mp h27, ?_⟩
    simp only [pure, Except.pure, Except.ok.injEq, shl8_or] at h
    rw [← h]; rfl
  rw [if_neg c0] at h
  by_cases c3 : t.val = 3
  · have e3 : t = 3 := Fin.ext c3
    rw [if_pos c3] at h
    obtain ⟨q, hq, h⟩ := bind_ok_inv h
    obtain ⟨hlen, rfl⟩ := slice_ok_inv hq
    refine Or.inr (Or.inl ⟨e3, hlen, ?_⟩)
    unfold withQuoted
    cases hp : ParseHeader (List.drop 28 (List.take 48 (b ++ spare))) <;>
      simp only [hp, pure, Except.pure, Except.ok.injEq] at h <;> rw [← h] <;> rfl
  rw [if_neg c3] at h
  by_cases c11 : t.val = 11
  · have e11 : t = 11 := Fin.ext c11
    rw [if_pos c11] at h
    obtain ⟨q, hq, h⟩ := bind_ok_inv h
    obtain ⟨hlen, rfl⟩ := slice_ok_inv hq
    obtain ⟨i0, h52, h⟩ := bind_ok_inv h
    obtain ⟨i1, h53, h⟩ := bind_ok_inv h
    obtain ⟨q0, h54, h⟩ := bind_ok_inv h
    obtain ⟨q1, h55, h⟩ := bind_ok_inv h
    refine Or.inr (Or.inr (Or.inl ⟨e11, hlen, i0, i1, q0, q1, idx_ok_iff.mp h52,
      idx_ok_iff.mp h53, idx_ok_iff.mp h54, idx_ok_iff.mp h55, ?_⟩))
    unfold withQuoted
    cases hp : ParseHeader (List.drop 28 (List.take 48 (b ++ spare))) <;>
      simp only [hp, pure, Except.pure, Except.ok.injEq, shl8_or] at h <;> rw [← h] <;> rfl
  rw [if_neg c11] at h
  simp only [pure, Except.pure, Except.ok.injEq] at h
  refine Or.inr (Or.inr (Or.inr ⟨fun e => c0 (by rw [e]; rfl), fun e => c3 (by rw [e]; rfl),
    fun e => c11 (by rw [e]; rfl), ?_⟩))
  rw [← h]; rfl

/-- Every response of the IPv6 parser has one of five shapes, decided by the
type byte and, for Time Exceeded, the length -/
theorem v6_ok_inv {b spare : List Byte} {r : ICMPResp} (h : icmpV6RespParser b spare = .ok r) :
    ∃ t c : Byte, b[0]? = some t ∧ b[1]? = some c ∧
      ((t = 3 ∧ b.length < 44 ∧ r = v6Base t c) ∨
       (t = 129 ∧ ∃ i0 i1 q0 q1 : Byte,
          b[4]? = some i0 ∧ b[5]? = some i1 ∧ b[6]? = some q0 ∧ b[7]? = some q1 ∧
          r = { v6Base t c with
            id := 256 * i0.val + i1.val, seq := 256 * q0.val + q1.val }) ∨
       (t = 1 ∧ 48 ≤ b.length + spare.length ∧
          r = { v6Base t c with ip := { dst := bytesToIPv6 (((b ++ spare).take 48).drop 32) } }) ∨
       (t = 3 ∧ 48 ≤ b.length + spare.length ∧ ∃ i0 i1 q0 q1 : Byte,
          b[52]? = some i0 ∧ b[53]? = some i1 ∧ b[54]? = some q0 ∧ b[55]? = some q1 ∧
          r = { v6Base t c with
            id := 256 * i0.val + i1.val, seq := 256 * q0.val + q1.val,
            ip := { dst := bytesToIPv6 (((b ++ spare).take 48).drop 32) } }) ∨
       (t ≠ 129 ∧ t ≠ 1 ∧ t ≠ 3 ∧ r = v6Base t c)) := by
  unfold icmpV6RespParser at h
  obtain ⟨t, h0, h⟩ := bind_ok_inv h
  obtain ⟨c, h1, h⟩ := bind_ok_inv h
  refine ⟨t, c, idx_ok_iff.mp h0, idx_ok_iff.mp h1, ?_⟩
  simp only at h
  by_cases cs : b.length < 44 ∧ t.val = 3
  · rw [if_pos cs] at h
    simp only [pure, Except.pure, Except.ok.injEq] at h
    refine Or.inl ⟨Fin.ext cs.2, cs.1, ?_⟩
    rw [← h]; rfl
  rw [if_neg cs] at h
  by_cases c129 : t.val = 129
  · rw [if_pos c129] at h
    obtain ⟨i0, h4, h⟩ := bind_ok_inv h
    obtain ⟨i1, h5, h⟩ := bind_ok_inv h
    obtain ⟨q0, h6, h⟩ := bind_ok_inv h
    obtain ⟨q1, h7, h⟩ := bind_ok_inv h
    refine Or.inr (Or.inl ⟨Fin.ext c129, i0, i1, q0, q1, idx_ok_iff.mp h4, idx_ok_iff.mp h5,
      idx_ok_iff.mp h6, idx_ok_iff.mp h7, ?_⟩)
    simp only [pure, Except.pure, Except.ok.injEq, shl8_or] at h
    rw [← h]; rfl
  rw [if_neg c129] at h
  by_cases c1 : t.val = 1
  · rw [if_pos c1] at h
    obtain ⟨q, hq, h⟩ := bind_ok_inv h
    obtain ⟨hlen, rfl⟩ := slice_ok_inv hq
    simp only [pure, Except.pure, Except.ok.injEq] at h
    refine Or.inr (Or.inr (Or.inl ⟨Fin.ext c1, hlen, ?_⟩))
    rw [← h]; rfl
  rw [if_neg c1] at h
  by_cases c3 : t.val = 3
  · rw [if_pos c3] at h
    obtain ⟨i0, h52, h⟩ := bind_ok_inv h
    obtain ⟨i1, h53, h⟩ := bind_ok_inv h
    obtain ⟨q0, h54, h⟩ := bind_ok_inv h
    obtain ⟨q1, h55, h⟩ := bind_ok_inv h
    obtain ⟨q, hq, h⟩ := bind_ok_inv h
    obtain ⟨hlen, rfl⟩ := slice_ok_inv hq
    simp only [pure, Except.pure, Except.ok.injEq, shl8_or] at h
    refine Or.inr (Or.inr (Or.inr (Or.inl ⟨Fin.ext c3, hlen, i0, i1, q0, q1,
      idx_ok_iff.mp h52, idx_ok_iff.mp h53, idx_ok_iff.mp h54, idx_ok_iff.mp h55, ?_⟩)))
    rw [← h]; rfl
  rw [if_neg c3] at h
  simp only [pure, Except.pure, Except.ok.injEq] at h
  refine Or.inr (Or.inr (Or.inr (Or.inr ⟨fun e => c129 (by rw [e]; rfl),
    fun e => c1 (by rw [e]; rfl), fun e => c3 (by rw [e]; rfl), ?_⟩)))
  rw [← h]; rfl

/-! ## The quoted IPv4 header -/

theorem withQuoted_typ (r : ICMPResp) (q : List Byte) : (withQuoted r q).typ = r.typ := by
  unfold withQuoted; cases ParseHeader q <;> rfl

theorem withQuoted_code (r : ICMPResp) (q : List Byte) : (withQuoted r q).code = r.code := by
  unfold withQuoted; cases ParseHeader q <;> rfl

theorem withQuoted_src (r : ICMPResp) (q : List Byte) : (withQuoted r q).src = r.src := by
  unfold withQuoted; cases ParseHeader q <;> rfl

/-- A quoted header that is not accepted leaves the response as it was -/
theorem withQuoted_of_error {r : ICMPResp} {q : List Byte} {e : HeaderError}
    (h : ParseHeader q = .error e) : withQuoted r q = r := by
  unfold withQuoted; rw [h]

/-- The header length field of a byte, in 32-bit words -/
theorem and_0x0f (x : Byte) : x.val &&& 0x0f = x.val % 16 :=
  Nat.and_pow_two_sub_one_eq_mod x.val 4

/-- On 20 bytes `ParseHeader` succeeds exactly when the header length field
is at most 5 words -/
theorem ParseHeader_ok_of_ihl {q : List Byte} (hq : q.length = 20)
    (hihl : (q.get ⟨0, by omega⟩).val % 16 ≤ 5) :
    ∃ h, ParseHeader q = .ok h ∧
      h.ID = 256 * (q.get ⟨4, by omega⟩).val + (q.get ⟨5, by omega⟩).val ∧
      h.Dst = netIPv4 (q.get ⟨16, by omega⟩) (q.get ⟨17, by omega⟩)
        (q.get ⟨18, by omega⟩) (q.get ⟨19, by omega⟩) := by
  have h20 : ¬ q.length < 20 := by omega
  have hl : ¬ (q.length < (q[0].val &&& 0x0f) <<< 2) := by
    rw [and_0x0f, Nat.shiftLeft_eq]
    simp only [List.get_eq_getElem] at hihl
    omega
  unfold ParseHeader
  rw [dif_neg h20]
  simp only [hl, if_false]
  exact ⟨_, rfl, shl8_or _ _, rfl⟩

/-- On 20 bytes `ParseHeader` fails when the header length field exceeds 5
words -/
theorem ParseHeader_error_of_ihl {q : List Byte} (hq : q.length = 20)
    (hihl : 5 < (q.get ⟨0, by omega⟩).val % 16) :
    ParseHeader q = .error .extHeaderTooShort := by
  have h20 : ¬ q.length < 20 := by omega
  have hl : q.length < (q[0].val &&& 0x0f) <<< 2 := by
    rw [and_0x0f, Nat.shiftLeft_eq]
    simp only [List.get_eq_getElem] at hihl
    omega
  unfold ParseHeader
  rw [dif_neg h20]
  simp only [hl, if_true]

/-- A quoted header that is accepted fills the quoted identification and
destination -/
theorem withQuoted_of_ok {r : ICMPResp} {q : List Byte} {h : Header}
    (hp : ParseHeader q = .ok h) : (withQuoted r q).ip = { id := h.ID, dst := h.Dst } := by
  unfold withQuoted; rw [hp]

theorem quoted_length {b : List Byte} (hlen : 48 ≤ b.length) :
    ((b.take 48).drop 28).length = 20 := by
  simp [List.length_drop, List.length_take]; omega

/-- The quoted identification and destination read from an accepted quoted
header -/
theorem quoted_fields {b : List Byte} (hlen : 48 ≤ b.length) (hihl : b[28].val % 16 ≤ 5)
    (r : ICMPResp) :
    (withQuoted r ((b.take 48).drop 28)).ip =
      { id := 256 * b[32].val + b[33].val, dst := netIPv4 b[44] b[45] b[46] b[47] } := by
  have hq := quoted_length hlen
  have h20 : ¬ ((b.take 48).drop 28).length < 20 := by omega
  have e0 : ((b.take 48).drop 28)[0] = b[28] := by simp
  have e4 : ((b.take 48).drop 28)[4] = b[32] := by simp
  have e5 : ((b.take 48).drop 28)[5] = b[33] := by simp
  have e16 : ((b.take 48).drop 28)[16] = b[44] := by simp
  have e17 : ((b.take 48).drop 28)[17] = b[45] := by simp
  have e18 : ((b.take 48).drop 28)[18] = b[46] := by simp
  have e19 : ((b.take 48).drop 28)[19] = b[47] := by simp
  have hl : ¬ (((b.take 48).drop 28).length < (b[28].val &&& 0x0f) <<< 2) := by
    rw [and_0x0f, Nat.shiftLeft_eq, hq]
    omega
  unfold withQuoted ParseHeader
  simp only [dif_neg h20, e0, e4, e5, e16, e17, e18, e19, hl, if_false, shl8_or]

/-! ## Splitting the local endpoint -/

/-- `strings.Split` returns at least one piece -/
theorem splitChars_ne_nil (sep : Char) (cs : List Char) : splitChars sep cs ≠ [] := by
  induction cs with
  | nil => simp [splitChars]
  | cons c cs ih =>
    unfold splitChars
    split
    · simp
    · split <;> simp

theorem stringsSplit_length (s : String) (sep : Char) : ¬ (stringsSplit s sep).length < 1 := by
  have h := splitChars_ne_nil sep s.toList
  unfold stringsSplit
  rw [List.length_map]
  have : 0 < (splitChars sep s.toList).length := List.length_pos.mpr h
  omega

/-- The IPv4 parser accepts every datagram long enough for its type; for a
Destination Unreachable the capacity counts -/
theorem v4_accepts_of_lengths (b : List Byte) {spare : List Byte} (h22 : 22 ≤ b.length)
    (h0 : b[20]? = some 0 → 28 ≤ b.length)
    (h3 : b[20]? = some 3 → 48 ≤ b.length + spare.length)
    (h11 : b[20]? = some 11 → 56 ≤ b.length) : ∃ r, icmpV4RespParser b spare = .ok r := by
  have e : b[20]? = some b[20] := List.getElem?_eq_getElem (by omega)
  by_cases c0 : b[20] = 0
  · exact ⟨_, v4_echoReply_eq b (h0 (by rw [e, c0])) c0⟩
  by_cases c3 : b[20] = 3
  · exact ⟨_, v4_destUnreach_cap_eq b h22 (h3 (by rw [e, c3])) c3⟩
  by_cases c11 : b[20] = 11
  · exact ⟨_, v4_timeExceeded_eq b (h11 (by rw [e, c11])) c11⟩
  exact ⟨_, v4_other_eq b h22 c0 c3 c11⟩

/-! ## The claims -/

/-- C1, as stated, fails: both parsers index the datagram before any length
check, so the empty datagram makes each of them fail with an out-of-range
index. -/
theorem decode_empty_out_of_range :
    icmpV4RespParser [] [] = .error .indexOutOfRange ∧
      icmpV6RespParser [] [] = .error .indexOutOfRange := by
  constructor <;> rfl

/-- C1, amended: decoding reads no index outside the datagram when the
datagram is long enough for the fields of its type. IPv4: at least 22 bytes,
28 for an Echo Reply, 48 for a Destination Unreachable, 56 for a Time
Exceeded. IPv6: at least 2 bytes, 8 for an Echo Reply, 48 for a Destination
Unreachable, and for a Time Exceeded either fewer than 44 or at least 56. -/
theorem decode_in_bounds (b spare : List Byte) :
    (22 ≤ b.length → (b[20]? = some 0 → 28 ≤ b.length) →
      (b[20]? = some 3 → 48 ≤ b.length) → (b[20]? = some 11 → 56 ≤ b.length) →
      ∃ r, icmpV4RespParser b spare = .ok r) ∧
    (2 ≤ b.length → (b[0]? = some 129 → 8 ≤ b.length) →
      (b[0]? = some 1 → 48 ≤ b.length) →
      (b[0]? = some 3 → b.length < 44 ∨ 56 ≤ b.length) →
      ∃ r, icmpV6RespParser b spare = .ok r) := by
  constructor
  · intro h22 h0 h3 h11
    have e : b[20]? = some b[20] := List.getElem?_eq_getElem (by omega)
    by_cases c0 : b[20] = 0
    · exact ⟨_, v4_echoReply_eq b (h0 (by rw [e, c0])) c0⟩
    by_cases c3 : b[20] = 3
    · exact ⟨_, v4_destUnreach_eq b (h3 (by rw [e, c3])) c3⟩
    by_cases c11 : b[20] = 11
    · exact ⟨_, v4_timeExceeded_eq b (h11 (by rw [e, c11])) c11⟩
    exact ⟨_, v4_other_eq b h22 c0 c3 c11⟩
  · intro h2 h129 h1 h3
    have e : b[0]? = some b[0] := List.getElem?_eq_getElem (by omega)
    by_cases c129 : b[0] = 129
    · exact ⟨_, v6_echoReply_eq b (h129 (by rw [e, c129])) c129⟩
    by_cases c1 : b[0] = 1
    · exact ⟨_, v6_destUnreach_eq b (h1 (by rw [e, c1])) c1⟩
    by_cases c3 : b[0] = 3
    · rcases h3 (by rw [e, c3]) with hs | hl
      · exact ⟨_, v6_shortTimeExceeded_eq b h2 hs c3⟩
      · exact ⟨_, v6_timeExceeded_eq b hl c3⟩
    exact ⟨_, v6_other_eq b h2 c129 c1 c3⟩

theorem decode_in_bounds_witness :
    (∃ r, icmpV4RespParser sampleTimeExceededV4 [] = .ok r) ∧
      (∃ r, icmpV6RespParser sampleShortTimeExceededV6 [] = .ok r) :=
  ⟨(decode_in_bounds sampleTimeExceededV4 []).1 (by decide) (by decide) (by decide) (by decide),
   (decode_in_bounds sampleShortTimeExceededV6 []).2 (by decide) (by decide) (by decide)
     (by decide)⟩

/-- C2, as stated, fails at length 1: the code byte is read before the length
guard, so a one-byte input of type 3 makes the parser fail. -/
theorem icmpV6RespParser_one_byte_timeExceeded :
    icmpV6RespParser [3] [] = .error .indexOutOfRange := by
  rfl

/-- C2, amended: an IPv6 Time Exceeded of 2 to 43 bytes is decoded to type 3
and its code byte, every other field being zero or empty. -/
theorem icmpV6RespParser_short_timeExceeded (b spare : List Byte) (h2 : 2 ≤ b.length)
    (h44 : b.length < 44) (ht : b[0] = 3) :
    icmpV6RespParser b spare = .ok
      { typ := 3, code := b[1].val, id := 0, seq := 0, src := [],
        udp := { dstPort := 0 }, ip := { dst := [], id := 0 } } := by
  rw [v6_shortTimeExceeded_eq b h2 h44 ht, ht]
  rfl

theorem icmpV6RespParser_short_timeExceeded_witness :
    icmpV6RespParser sampleShortTimeExceededV6 [] = .ok
      { typ := 3, code := 0, id := 0, seq := 0, src := [],
        udp := { dstPort := 0 }, ip := { dst := [], id := 0 } } :=
  icmpV6RespParser_short_timeExceeded sampleShortTimeExceededV6 [] (by decide) (by decide)
    (by decide)

/-- C3, as stated, fails between 44 and 55 bytes: the length guard lets a
44-byte Time Exceeded through, and reading the identifier at byte 52 fails. -/
theorem icmpV6RespParser_cut_timeExceeded :
    sampleCutTimeExceededV6.length = 44 ∧ sampleCutTimeExceededV6[0]? = some 3 ∧
      icmpV6RespParser sampleCutTimeExceededV6 [] = .error .indexOutOfRange := by
  refine ⟨rfl, rfl, rfl⟩

/-- C3, amended: an IPv6 Time Exceeded of at least 56 bytes is decoded to the
identifier at bytes 52-53, the sequence number at bytes 54-55 and the quoted
destination at bytes 32-47. -/
theorem icmpV6RespParser_timeExceeded (b spare : List Byte) (hlen : 56 ≤ b.length)
    (ht : b[0] = 3) :
    ∃ r, icmpV6RespParser b spare = .ok r ∧
      r.id = 256 * b[52].val + b[53].val ∧ r.seq = 256 * b[54].val + b[55].val ∧
      r.ip.dst = (b.drop 32).take 16 ∧ r.ip.dst.length = 16 := by
  have hq : ((b.take 48).drop 32).length = 16 := by
    simp [List.length_drop, List.length_take]; omega
  refine ⟨_, v6_timeExceeded_eq b hlen ht, rfl, rfl, ?_, ?_⟩
  · show bytesToIPv6 ((b.take 48).drop 32) = (b.drop 32).take 16
    rw [bytesToIPv6_of_length hq, List.drop_take]
  · show (bytesToIPv6 ((b.take 48).drop 32)).length = 16
    exact bytesToIPv6_length _

theorem icmpV6RespParser_timeExceeded_witness :
    ∃ r, icmpV6RespParser sampleTimeExceededV6 [] = .ok r ∧
      r.id = 4660 ∧ r.seq = 7 ∧
      r.ip.dst = [32, 1, 13, 184, 0, 0, 0, 0, 0, 0, 0, 0, 0, 0, 0, 2] ∧
      r.ip.dst.length = 16 :=
  icmpV6RespParser_timeExceeded sampleTimeExceededV6 [] (by decide) (by decide)

/-- C4: round trip. For 16-bit id and seq and a non-negative size, every Echo
Request that `icmpV4Message` returns, with its type byte replaced by 0 and
any 20-byte IP header in front, is decoded by `icmpV4RespParser` to that id
and seq; every one that `icmpV6Message` returns, with its type byte replaced
by 129, is decoded by `icmpV6RespParser` to that id and seq. The builders
return a message whenever its `max(0, size - overhead) + 8` bytes can be
allocated. -/
theorem echo_roundtrip (mem draw : Nat) (id seq size : Int) (hdr spare : List Byte)
    (hid : 0 ≤ id ∧ id < 65536) (hseq : 0 ≤ seq ∧ seq < 65536)
    (hsize : 0 ≤ size) (hhdr : hdr.length = 20) :
    (∀ m, icmpV4Message mem draw id seq size = .ok (.ok m) →
      ∃ r, icmpV4RespParser (hdr ++ m.set 0 0) spare = .ok r ∧
        (r.id : Int) = id ∧ (r.seq : Int) = seq) ∧
    (∀ m, icmpV6Message mem draw id seq size = .ok (.ok m) →
      ∃ r, icmpV6RespParser (m.set 0 129) spare = .ok r ∧
        (r.id : Int) = id ∧ (r.seq : Int) = seq) ∧
    ((size - 28).toNat + 8 ≤ mem → (size - 28).toNat + 8 ≤ maxAlloc →
      ∃ m, icmpV4Message mem draw id seq size = .ok (.ok m)) ∧
    ((size - 48).toNat + 8 ≤ mem → (size - 48).toNat + 8 ≤ maxAlloc →
      ∃ m, icmpV6Message mem draw id seq size = .ok (.ok m)) := by
  refine ⟨?_, ?_, ?_, ?_⟩
  · intro m hm
    obtain ⟨c2, c3, data, rfl⟩ := icmpV4Message_ok_inv hm
    rw [List.set_cons_zero]
    obtain ⟨r, hr, hi, hq⟩ := v4_parse_reply hdr spare hhdr (byteOf 0) c2 c3
      (byteOf (uint16 id >>> 8)) (byteOf (uint16 id))
      (byteOf (uint16 seq >>> 8)) (byteOf (uint16 seq)) data
    refine ⟨r, hr, ?_, ?_⟩
    · rw [hi]; exact putUint16_decode id hid.1 hid.2
    · rw [hq]; exact putUint16_decode seq hseq.1 hseq.2
  · intro m hm
    obtain ⟨data, rfl⟩ := icmpV6Message_ok_inv hm
    rw [List.set_cons_zero]
    obtain ⟨r, hr, hi, hq⟩ := v6_parse_reply spare (byteOf 0) 0 0
      (byteOf (uint16 id >>> 8)) (byteOf (uint16 id))
      (byteOf (uint16 seq >>> 8)) (byteOf (uint16 seq)) data
    refine ⟨r, hr, ?_, ?_⟩
    · rw [hi]; exact putUint16_decode id hid.1 hid.2
    · rw [hq]; exact putUint16_decode seq hseq.1 hseq.2
  · intro hm hx
    have h := icmpMessage_of_fits mem draw id seq size true hsize
      (by simpa [overhead] using hm) (by simpa [overhead] using hx)
    simpa using h
  · intro hm hx
    have h := icmpMessage_of_fits mem draw id seq size false hsize
      (by simpa [overhead] using hm) (by simpa [overhead] using hx)
    simpa using h

theorem echo_roundtrip_witness :
    (∃ m, icmpV4Message 1500 0 4660 7 64 = .ok (.ok m) ∧
      ∃ r, icmpV4RespParser (sampleIPHeader ++ m.set 0 0) [] = .ok r ∧
        (r.id : Int) = 4660 ∧ (r.seq : Int) = 7) ∧
    (∃ m, icmpV6Message 1500 0 4660 7 64 = .ok (.ok m) ∧
      ∃ r, icmpV6RespParser (m.set 0 129) [] = .ok r ∧
        (r.id : Int) = 4660 ∧ (r.seq : Int) = 7) :=
  ⟨((echo_roundtrip 1500 0 4660 7 64 sampleIPHeader [] (by decide) (by decide) (by decide)
      (by decide)).2.2.1 (by decide) (by decide)).elim fun m hm =>
      ⟨m, hm, (echo_roundtrip 1500 0 4660 7 64 sampleIPHeader [] (by decide) (by decide)
        (by decide) (by decide)).1 m hm⟩,
   ((echo_roundtrip 1500 0 4660 7 64 sampleIPHeader [] (by decide) (by decide) (by decide)
      (by decide)).2.2.2 (by decide) (by decide)).elim fun m hm =>
      ⟨m, hm, (echo_roundtrip 1500 0 4660 7 64 sampleIPHeader [] (by decide) (by decide)
        (by decide) (by decide)).2.1 m hm⟩⟩

/-- C5, as stated, fails for Destination Unreachable: the parser reads the
quoted identifier only for Time Exceeded. The sample Destination Unreachable
quotes identifier 0x1234 at bytes 52-53 and is decoded to id 0. -/
theorem destUnreach_id_not_decoded :
    56 ≤ sampleDestUnreachV4.length ∧ sampleDestUnreachV4[20]? = some 3 ∧
      (sampleDestUnreachV4[52]?, sampleDestUnreachV4[53]?) = (some 18, some 52) ∧
      Except.map ICMPResp.id (icmpV4RespParser sampleDestUnreachV4 []) = .ok 0 := by
  refine ⟨by decide, rfl, rfl, rfl⟩

/-- C5, amended: in a reply of at least 56 bytes, a Time Exceeded (IPv4 type
11, IPv6 type 3) is decoded to the identifier at bytes 52-53 and the sequence
number at bytes 54-55 of the quoted Echo Request, and a Destination
Unreachable (IPv4 type 3, IPv6 type 1) is decoded with id and seq left 0. -/
theorem error_reply_id_seq (b spare : List Byte) (hlen : 56 ≤ b.length) :
    (b[20] = 11 → ∃ r, icmpV4RespParser b spare = .ok r ∧
      r.id = 256 * b[52].val + b[53].val ∧ r.seq = 256 * b[54].val + b[55].val) ∧
    (b[0] = 3 → ∃ r, icmpV6RespParser b spare = .ok r ∧
      r.id = 256 * b[52].val + b[53].val ∧ r.seq = 256 * b[54].val + b[55].val) ∧
    (b[20] = 3 → ∃ r, icmpV4RespParser b spare = .ok r ∧ r.id = 0 ∧ r.seq = 0) ∧
    (b[0] = 1 → ∃ r, icmpV6RespParser b spare = .ok r ∧ r.id = 0 ∧ r.seq = 0) := by
  refine ⟨fun ht => ?_, fun ht => ?_, fun ht => ?_, fun ht => ?_⟩
  · exact ⟨_, v4_timeExceeded_eq b hlen ht, withQuoted_id _ _, withQuoted_seq _ _⟩
  · exact ⟨_, v6_timeExceeded_eq b hlen ht, rfl, rfl⟩
  · exact ⟨_, v4_destUnreach_eq b (by omega) ht, withQuoted_id _ _, withQuoted_seq _ _⟩
  · exact ⟨_, v6_destUnreach_eq b (by omega) ht, rfl, rfl⟩

theorem error_reply_id_seq_witness :
    (∃ r, icmpV4RespParser sampleTimeExceededV4 [] = .ok r ∧ r.id = 4660 ∧ r.seq = 7) ∧
      (∃ r, icmpV6RespParser sampleTimeExceededV6 [] = .ok r ∧ r.id = 4660 ∧ r.seq = 7) ∧
      (∃ r, icmpV4RespParser sampleDestUnreachV4 [] = .ok r ∧ r.id = 0 ∧ r.seq = 0) ∧
      (∃ r, icmpV6RespParser sampleDestUnreachV6 [] = .ok r ∧ r.id = 0 ∧ r.seq = 0) :=
  ⟨(error_reply_id_seq sampleTimeExceededV4 [] (by decide)).1 (by decide),
   (error_reply_id_seq sampleTimeExceededV6 [] (by decide)).2.1 (by decide),
   (error_reply_id_seq sampleDestUnreachV4 [] (by decide)).2.2.1 (by decide),
   (error_reply_id_seq sampleDestUnreachV6 [] (by decide)).2.2.2 (by decide)⟩

/-- C6, as stated, fails for a size whose payload exceeds the runtime's bound
on one allocation: for size 2^62 `make` panics with a length out of range,
whatever memory there is. -/
theorem icmpPayload_huge_size :
    icmpPayload maxAlloc 0 (2 ^ 62) true = .error .makeLenOutOfRange ∧
      icmpPayload maxAlloc 0 (2 ^ 62) false = .error .makeLenOutOfRange := by
  constructor
  · rw [icmpPayload_of_nonneg _ _ _ _ (by norm_num) (by norm_num)]
    exact makeSlice_of_gt_maxAlloc _ (by norm_num [overhead, maxAlloc])
  · rw [icmpPayload_of_nonneg _ _ _ _ (by norm_num) (by norm_num)]
    exact makeSlice_of_gt_maxAlloc _ (by norm_num [overhead, maxAlloc])

/-- C6, amended: for a non-negative size whose payload of
`max(0, size - overhead)` bytes can be allocated (at most `maxAlloc` and at
most the memory the process can obtain), the payload has exactly that many
bytes, the overhead being 28 for IPv4 and 48 for IPv6. -/
theorem icmpPayload_length (mem draw : Nat) (size : Int) (isIPv4 : Bool) (h0 : 0 ≤ size)
    (hm : (size - (if isIPv4 = true then 28 else 48)).toNat ≤ mem)
    (hx : (size - (if isIPv4 = true then 28 else 48)).toNat ≤ maxAlloc) :
    ∃ p, icmpPayload mem draw size isIPv4 = .ok p ∧
      (p.length : Int) = max 0 (size - (if isIPv4 = true then 28 else 48)) := by
  have hmaxA : maxAlloc = 2 ^ 48 := rfl
  have hov : overhead isIPv4 = (if isIPv4 = true then 28 else 48) := by
    cases isIPv4 <;> simp [overhead]
  rw [← hov] at hm hx ⊢
  have hov48 : overhead isIPv4 ≤ 48 := by cases isIPv4 <;> simp [overhead]
  have hs : size < 2 ^ 63 := by omega
  have hp : icmpPayload mem draw size isIPv4 =
      .ok (makeBytes (size - overhead isIPv4).toNat) := by
    rw [icmpPayload_of_nonneg mem draw size isIPv4 h0 hs,
      makeSlice_of_fits (Int.natCast_nonneg _) (by omega) (by omega), Int.toNat_ofNat]
  refine ⟨_, hp, ?_⟩
  simp only [makeBytes, List.length_replicate]
  omega

theorem icmpPayload_length_witness :
    ∃ p, icmpPayload 1500 0 64 true = .ok p ∧
      (p.length : Int) = max 0 (64 - (if true = true then 28 else 48)) :=
  icmpPayload_length 1500 0 64 true (by decide) (by decide) (by decide)

/-- C7, as stated, fails. For a negative size of magnitude at most the
overhead the computed length is clamped to 0 and `rand.Intn(0)` panics, so no
payload is returned (and no length lies in the empty range). For size -(2^62)
and a draw of 2^61 the drawn length exceeds the runtime's bound on one
allocation and `make` panics. -/
theorem icmpPayload_small_negative :
    icmpPayload 1500 0 (-1) true = .error .intnNonPositive ∧
      icmpPayload 1500 0 (-48) false = .error .intnNonPositive ∧
      icmpPayload maxAlloc (2 ^ 61) (-(2 ^ 62)) true = .error .makeLenOutOfRange := by
  refine ⟨?_, ?_, ?_⟩
  · exact icmpPayload_small_neg _ _ _ _ (by norm_num) (by norm_num [overhead])
  · exact icmpPayload_small_neg _ _ _ _ (by norm_num) (by norm_num [overhead])
  · rw [icmpPayload_of_neg _ _ _ _ (by norm_num) (by norm_num) (by norm_num [overhead])]
    exact makeSlice_of_gt_maxAlloc _ (by norm_num [overhead, maxAlloc])

/-- C7, amended: for a negative size whose magnitude exceeds the overhead (28
for IPv4, 48 for IPv6) and whose largest length `abs(size) - overhead - 1` can
be allocated, and for every outcome of the random source, the payload length
L satisfies `0 <= L < abs(size) - overhead`. -/
theorem icmpPayload_negative (mem draw : Nat) (size : Int) (isIPv4 : Bool)
    (hneg : size < 0) (hmin : -(2 ^ 63) ≤ size)
    (hbig : (if isIPv4 = true then 28 else 48) < |size|)
    (hm : (|size| - (if isIPv4 = true then 28 else 48) - 1).toNat ≤ mem)
    (hx : (|size| - (if isIPv4 = true then 28 else 48) - 1).toNat ≤ maxAlloc) :
    ∃ p, icmpPayload mem draw size isIPv4 = .ok p ∧
      0 ≤ (p.length : Int) ∧ (p.length : Int) < |size| - (if isIPv4 = true then 28 else 48) := by
  rw [abs_of_neg hneg] at hbig hm hx ⊢
  have hov : overhead isIPv4 = (if isIPv4 = true then 28 else 48) := by
    cases isIPv4 <;> simp [overhead]
  rw [← hov] at hbig hm hx ⊢
  have hpos : (0 : Int) < -size - overhead isIPv4 := by omega
  have h1 := Int.emod_lt_of_pos (draw : Int) hpos
  have h0 := Int.emod_nonneg (draw : Int) (show (-size - overhead isIPv4) ≠ 0 by omega)
  have hp : icmpPayload mem draw size isIPv4 =
      .ok (makeBytes ((draw : Int) % (-size - overhead isIPv4)).toNat) := by
    rw [icmpPayload_of_neg mem draw size isIPv4 hneg hmin hbig]
    exact makeSlice_of_fits h0 (by omega) (by omega)
  refine ⟨_, hp, Int.natCast_nonneg _, ?_⟩
  simp only [makeBytes, List.length_replicate]
  omega

theorem icmpPayload_negative_witness :
    ∃ p, icmpPayload 1500 100 (-64) true = .ok p ∧
      0 ≤ (p.length : Int) ∧
      (p.length : Int) < |(-64 : Int)| - (if true = true then 28 else 48) :=
  icmpPayload_negative 1500 100 (-64) true (by decide) (by decide) (by decide) (by decide)
    (by decide)

/-- C8 fails on the code: for a negative size of magnitude at most the
overhead (28 for IPv4, 48 for IPv6) building the Echo Request neither returns
bytes nor an error: payload construction panics in `rand.Intn(0)`. -/
theorem icmpMessage_small_negative_panics (mem draw : Nat) (id seq size : Int)
    (hneg : size < 0) :
    (-28 ≤ size → icmpV4Message mem draw id seq size = .error .intnNonPositive) ∧
    (-48 ≤ size → icmpV6Message mem draw id seq size = .error .intnNonPositive) := by
  constructor
  · intro h
    simp only [icmpV4Message,
      icmpPayload_small_neg mem draw size true hneg (by simpa [overhead] using h),
      bind, Except.bind]
  · intro h
    simp only [icmpV6Message,
      icmpPayload_small_neg mem draw size false hneg (by simpa [overhead] using h),
      bind, Except.bind]

theorem icmpMessage_small_negative_panics_witness :
    icmpV4Message 1500 0 4660 7 (-1) = .error .intnNonPositive ∧
      icmpV6Message 1500 0 4660 7 (-1) = .error .intnNonPositive :=
  ⟨(icmpMessage_small_negative_panics 1500 0 4660 7 (-1) (by decide)).1 (by decide),
   (icmpMessage_small_negative_panics 1500 0 4660 7 (-1) (by decide)).2 (by decide)⟩

/-- C9: an IPv4 Echo Reply of at least 28 bytes is decoded to the big-endian
identifier at bytes 24-25 and sequence number at bytes 26-27. -/
theorem icmpV4RespParser_echoReply (b spare : List Byte) (hlen : 28 ≤ b.length) (ht : b[20] = 0) :
    ∃ r, icmpV4RespParser b spare = .ok r ∧
      r.id = 256 * b[24].val + b[25].val ∧ r.seq = 256 * b[26].val + b[27].val := by
  exact ⟨_, v4_echoReply_eq b hlen ht, rfl, rfl⟩

theorem icmpV4RespParser_echoReply_witness :
    ∃ r, icmpV4RespParser sampleEchoReplyV4 [] = .ok r ∧ r.id = 4660 ∧ r.seq = 7 :=
  icmpV4RespParser_echoReply sampleEchoReplyV4 [] (by decide) (by decide)

/-- C10: an IPv4 Time Exceeded of at least 56 bytes is decoded to the
identifier at bytes 52-53 and the sequence number at bytes 54-55, those of
the quoted ICMP header. -/
theorem icmpV4RespParser_timeExceeded (b spare : List Byte) (hlen : 56 ≤ b.length)
    (ht : b[20] = 11) :
    ∃ r, icmpV4RespParser b spare = .ok r ∧
      r.id = 256 * b[52].val + b[53].val ∧ r.seq = 256 * b[54].val + b[55].val := by
  exact ⟨_, v4_timeExceeded_eq b hlen ht, withQuoted_id _ _, withQuoted_seq _ _⟩

theorem icmpV4RespParser_timeExceeded_witness :
    ∃ r, icmpV4RespParser sampleTimeExceededV4 [] = .ok r ∧ r.id = 4660 ∧ r.seq = 7 :=
  icmpV4RespParser_timeExceeded sampleTimeExceededV4 [] (by decide) (by decide)

/-- C11, as stated, fails when the quoted header announces more than 5 words:
the sample Time Exceeded quotes a header with length field 6 and
identification 0xabcd, `ipv4.ParseHeader` rejects its first 20 bytes, and the
quoted identification and destination stay zero and empty. -/
theorem quoted_header_with_options_ignored :
    56 ≤ sampleTimeExceededOptsV4.length ∧ sampleTimeExceededOptsV4[20]? = some 11 ∧
      (sampleTimeExceededOptsV4[32]?, sampleTimeExceededOptsV4[33]?) = (some 171, some 205) ∧
      Except.map ICMPResp.ip (icmpV4RespParser sampleTimeExceededOptsV4 []) =
        .ok { dst := [], id := 0 } := by
  refine ⟨by decide, rfl, rfl, rfl⟩

/-- C11, amended: for an IPv4 Destination Unreachable of at least 48 bytes or
Time Exceeded of at least 56 bytes whose quoted header has a length field
(low nibble of byte 28) of at most 5, the parser returns the quoted
identification `256*b[32] + b[33]` and the quoted destination
`b[44].b[45].b[46].b[47]`. -/
theorem quoted_header_fields (b spare : List Byte) (hlen : 48 ≤ b.length)
    (hihl : b[28].val % 16 ≤ 5) :
    (b[20] = 3 → ∃ r, icmpV4RespParser b spare = .ok r ∧
      r.ip.id = 256 * b[32].val + b[33].val ∧ r.ip.dst = netIPv4 b[44] b[45] b[46] b[47]) ∧
    (b[20] = 11 → 56 ≤ b.length → ∃ r, icmpV4RespParser b spare = .ok r ∧
      r.ip.id = 256 * b[32].val + b[33].val ∧ r.ip.dst = netIPv4 b[44] b[45] b[46] b[47]) := by
  constructor
  · intro ht
    refine ⟨_, v4_destUnreach_eq b hlen ht, ?_, ?_⟩
    · rw [quoted_fields hlen hihl]
    · rw [quoted_fields hlen hihl]
  · intro ht h56
    refine ⟨_, v4_timeExceeded_eq b h56 ht, ?_, ?_⟩
    · rw [quoted_fields hlen hihl]
    · rw [quoted_fields hlen hihl]

theorem quoted_header_fields_witness :
    (∃ r, icmpV4RespParser sampleDestUnreachV4 [] = .ok r ∧
      r.ip.id = 43981 ∧ r.ip.dst = netIPv4 8 8 8 8) ∧
    (∃ r, icmpV4RespParser sampleTimeExceededV4 [] = .ok r ∧
      r.ip.id = 43981 ∧ r.ip.dst = netIPv4 8 8 8 8) :=
  ⟨(quoted_header_fields sampleDestUnreachV4 [] (by decide) (by decide)).1 (by decide),
   (quoted_header_fields sampleTimeExceededV4 [] (by decide) (by decide)).2 (by decide)
     (by decide)⟩

/-- C12: whenever the IPv4 parser returns, the response carries the type
byte 20, the code byte 21 and the source address of bytes 12 to 15. -/
theorem icmpV4RespParser_header (b spare : List Byte) (r : ICMPResp)
    (h : icmpV4RespParser b spare = .ok r) :
    ∃ t c s0 s1 s2 s3 : Byte,
      b[20]? = some t ∧ b[21]? = some c ∧ b[12]? = some s0 ∧ b[13]? = some s1 ∧
      b[14]? = some s2 ∧ b[15]? = some s3 ∧
      r.typ = t.val ∧ r.code = c.val ∧ r.src = netIPv4 s0 s1 s2 s3 := by
  obtain ⟨t, c, s0, s1, s2, s3, h20, h21, h12, h13, h14, h15, hc⟩ := v4_ok_inv h
  refine ⟨t, c, s0, s1, s2, s3, h20, h21, h12, h13, h14, h15, ?_⟩
  rcases hc with ⟨_, _, _, _, _, _, _, _, _, rfl⟩ | ⟨_, _, rfl⟩ |
    ⟨_, _, _, _, _, _, _, _, _, _, rfl⟩ | ⟨_, _, _, rfl⟩
  · exact ⟨rfl, rfl, rfl⟩
  · exact ⟨withQuoted_typ _ _, withQuoted_code _ _, withQuoted_src _ _⟩
  · exact ⟨withQuoted_typ _ _, withQuoted_code _ _, withQuoted_src _ _⟩
  · exact ⟨rfl, rfl, rfl⟩

theorem icmpV4RespParser_header_witness :
    ∃ t c s0 s1 s2 s3 : Byte,
      sampleTimeExceededV4[20]? = some t ∧ sampleTimeExceededV4[21]? = some c ∧
      sampleTimeExceededV4[12]? = some s0 ∧ sampleTimeExceededV4[13]? = some s1 ∧
      sampleTimeExceededV4[14]? = some s2 ∧ sampleTimeExceededV4[15]? = some s3 ∧
      11 = t.val ∧ 0 = c.val ∧ netIPv4 10 0 0 254 = netIPv4 s0 s1 s2 s3 :=
  icmpV4RespParser_header sampleTimeExceededV4 []
    { typ := 11, code := 0, id := 4660, seq := 7, src := netIPv4 10 0 0 254,
      ip := { dst := netIPv4 8 8 8 8, id := 43981 } } rfl

/-- C13: an IPv6 Echo Reply of at least 8 bytes is decoded to type 129, its
code byte, the identifier at bytes 4-5 and the sequence number at bytes 6-7. -/
theorem icmpV6RespParser_echoReply (b spare : List Byte) (hlen : 8 ≤ b.length) (ht : b[0] = 129) :
    ∃ r, icmpV6RespParser b spare = .ok r ∧ r.typ = 129 ∧ r.code = b[1].val ∧
      r.id = 256 * b[4].val + b[5].val ∧ r.seq = 256 * b[6].val + b[7].val := by
  refine ⟨_, v6_echoReply_eq b hlen ht, ?_, rfl, rfl, rfl⟩
  show b[0].val = 129
  rw [ht]; rfl

theorem icmpV6RespParser_echoReply_witness :
    ∃ r, icmpV6RespParser sampleEchoReplyV6 [] = .ok r ∧ r.typ = 129 ∧ r.code = 0 ∧
      r.id = 4660 ∧ r.seq = 7 :=
  icmpV6RespParser_echoReply sampleEchoReplyV6 [] (by decide) (by decide)

/-- C14: an IPv6 Destination Unreachable of at least 48 bytes is decoded to a
quoted destination of 16 bytes, byte for byte bytes 32 to 47. -/
theorem icmpV6RespParser_destUnreach (b spare : List Byte) (hlen : 48 ≤ b.length) (ht : b[0] = 1) :
    ∃ r, icmpV6RespParser b spare = .ok r ∧ r.ip.dst.length = 16 ∧
      r.ip.dst = (b.drop 32).take 16 ∧ ∀ i, i < 16 → r.ip.dst[i]? = b[32 + i]? := by
  have hq : ((b.take 48).drop 32).length = 16 := by
    simp [List.length_drop, List.length_take]; omega
  have hd : bytesToIPv6 ((b.take 48).drop 32) = (b.drop 32).take 16 := by
    rw [bytesToIPv6_of_length hq, List.drop_take]
  refine ⟨_, v6_destUnreach_eq b hlen ht, ?_, ?_, ?_⟩
  · exact bytesToIPv6_length _
  · exact hd
  · intro i hi
    show (bytesToIPv6 ((b.take 48).drop 32))[i]? = b[32 + i]?
    rw [hd, List.getElem?_take_of_lt hi, List.getElem?_drop]

theorem icmpV6RespParser_destUnreach_witness :
    ∃ r, icmpV6RespParser sampleDestUnreachV6 [] = .ok r ∧ r.ip.dst.length = 16 ∧
      r.ip.dst = (sampleDestUnreachV6.drop 32).take 16 ∧
      ∀ i, i < 16 → r.ip.dst[i]? = sampleDestUnreachV6[32 + i]? :=
  icmpV6RespParser_destUnreach sampleDestUnreachV6 [] (by decide) (by decide)

/-- C15 fails on the code: once the dial has succeeded `getLocalAddr` returns
a nil error for every local endpoint string, with whatever `net.ParseIP`
makes of the text before the first colon, the nil address included. For the
endpoint `[::1]:53211` of an IPv6 connection that text is `[`. -/
theorem getLocalAddr_error_always_nil :
    (∀ (ParseIP : String → IP) (rAddr localAddr : String),
      ∃ first, (stringsSplit localAddr ':').head? = some first ∧
        getLocalAddr (fun _ _ => .ok localAddr) ParseIP rAddr = (ParseIP first, none)) ∧
    (∀ ParseIP : String → IP,
      getLocalAddr (fun _ _ => .ok "[::1]:53211") ParseIP "::1" = (ParseIP "[", none)) := by
  constructor
  · intro ParseIP rAddr localAddr
    have hl := stringsSplit_length localAddr ':'
    have hpos : 0 < (stringsSplit localAddr ':').length := by omega
    refine ⟨(stringsSplit localAddr ':')[0], ?_, ?_⟩
    · rw [List.head?_eq_getElem?, List.getElem?_eq_getElem hpos]
    · simp only [getLocalAddr, dif_neg hl]
  · intro ParseIP
    have hs : stringsSplit "[::1]:53211" ':' = ["[", "", "1]", "53211"] := by decide
    simp [getLocalAddr, hs]

set_option maxRecDepth 8192 in
/-- C16, as stated, fails: Go checks a slice expression against the capacity,
not the length. The 47-byte Destination Unreachable in a 512-byte receive
buffer is decoded, its quoted header read to byte 47 of the buffer, although
it has fewer than 48 bytes. -/
theorem icmpV4RespParser_short_destUnreach_returns :
    sampleShortDestUnreachV4.length = 47 ∧ sampleShortDestUnreachV4[20]? = some 3 ∧
      sampleShortDestUnreachV4.length + sampleSpare.length = 512 ∧
      icmpV4RespParser sampleShortDestUnreachV4 sampleSpare = .ok
        { typ := 3, code := 1, id := 0, seq := 0, src := netIPv4 10 0 0 254,
          udp := { dstPort := 0 }, ip := { dst := netIPv4 8 8 8 0, id := 43981 } } := by
  refine ⟨rfl, rfl, rfl, rfl⟩

/-- C16, amended: the IPv4 parser returns exactly when the datagram has at
least 22 bytes, at least 28 for an Echo Reply, a capacity of at least 48 for
a Destination Unreachable and at least 56 bytes for a Time Exceeded; every
datagram of at least 56 bytes is decoded. -/
theorem icmpV4RespParser_accepts_iff (b spare : List Byte) :
    ((∃ r, icmpV4RespParser b spare = .ok r) ↔
      22 ≤ b.length ∧ (b[20]? = some 0 → 28 ≤ b.length) ∧
        (b[20]? = some 3 → 48 ≤ b.length + spare.length) ∧
        (b[20]? = some 11 → 56 ≤ b.length)) ∧
    (56 ≤ b.length → ∃ r, icmpV4RespParser b spare = .ok r) := by
  refine ⟨⟨?_, ?_⟩, ?_⟩
  · rintro ⟨r, h⟩
    obtain ⟨t, c, s0, s1, s2, s3, h20, h21, _, _, _, _, hc⟩ := v4_ok_inv h
    have l21 := lt_of_getElem?_some h21
    have key : ∀ v : Byte, b[20]? = some v → t = v := fun v hv =>
      Option.some.inj (h20.symm.trans hv)
    rcases hc with ⟨e, _, _, _, q1, _, _, _, h27, _⟩ | ⟨e, hlen, _⟩ |
      ⟨e, _, _, _, _, q1, _, _, _, h55, _⟩ | ⟨n0, n3, n11, _⟩
    · have l27 := lt_of_getElem?_some h27
      refine ⟨by omega, fun _ => by omega, fun h3 => ?_, fun h11 => ?_⟩
      · exact absurd (e.symm.trans (key 3 h3)) (by decide)
      · exact absurd (e.symm.trans (key 11 h11)) (by decide)
    · refine ⟨by omega, fun h0 => ?_, fun _ => hlen, fun h11 => ?_⟩
      · exact absurd (e.symm.trans (key 0 h0)) (by decide)
      · exact absurd (e.symm.trans (key 11 h11)) (by decide)
    · have l55 := lt_of_getElem?_some h55
      refine ⟨by omega, fun h0 => ?_, fun h3 => ?_, fun _ => by omega⟩
      · exact absurd (e.symm.trans (key 0 h0)) (by decide)
      · exact absurd (e.symm.trans (key 3 h3)) (by decide)
    · exact ⟨by omega, fun h0 => absurd (key 0 h0) n0, fun h3 => absurd (key 3 h3) n3,
        fun h11 => absurd (key 11 h11) n11⟩
  · rintro ⟨h22, h0, h3, h11⟩
    exact v4_accepts_of_lengths b h22 h0 h3 h11
  · intro h56
    exact v4_accepts_of_lengths b (by omega) (fun _ => by omega) (fun _ => by omega)
      (fun _ => h56)

theorem icmpV4RespParser_accepts_iff_witness :
    ∃ r, icmpV4RespParser sampleTimeExceededV4 [] = .ok r :=
  (icmpV4RespParser_accepts_iff sampleTimeExceededV4 []).2 (by decide)

/-- C17: whenever a parser returns, type and code are at most 255 and
identifier and sequence number at most 65535 (all four are non-negative). -/
theorem decoded_fields_in_range (b spare : List Byte) (r : ICMPResp) :
    (icmpV4RespParser b spare = .ok r →
      r.typ ≤ 255 ∧ r.code ≤ 255 ∧ r.id ≤ 65535 ∧ r.seq ≤ 65535) ∧
    (icmpV6RespParser b spare = .ok r →
      r.typ ≤ 255 ∧ r.code ≤ 255 ∧ r.id ≤ 65535 ∧ r.seq ≤ 65535) := by
  constructor
  · intro h
    obtain ⟨t, c, s0, s1, s2, s3, _, _, _, _, _, _, hc⟩ := v4_ok_inv h
    have ht := t.isLt
    have hcd := c.isLt
    rcases hc with ⟨_, i0, i1, q0, q1, _, _, _, _, rfl⟩ | ⟨_, _, rfl⟩ |
      ⟨_, _, i0, i1, q0, q1, _, _, _, _, rfl⟩ | ⟨_, _, _, rfl⟩
    · have := i0.isLt; have := i1.isLt; have := q0.isLt; have := q1.isLt
      refine ⟨?_, ?_, ?_, ?_⟩ <;> simp only [v4Base] <;> omega
    · rw [withQuoted_typ, withQuoted_code, withQuoted_id, withQuoted_seq]
      refine ⟨?_, ?_, ?_, ?_⟩ <;> simp only [v4Base] <;> omega
    · have := i0.isLt; have := i1.isLt; have := q0.isLt; have := q1.isLt
      rw [withQuoted_typ, withQuoted_code, withQuoted_id, withQuoted_seq]
      refine ⟨?_, ?_, ?_, ?_⟩ <;> simp only [v4Base] <;> omega
    · refine ⟨?_, ?_, ?_, ?_⟩ <;> simp only [v4Base] <;> omega
  · intro h
    obtain ⟨t, c, _, _, hc⟩ := v6_ok_inv h
    have ht := t.isLt
    have hcd := c.isLt
    rcases hc with ⟨_, _, rfl⟩ | ⟨_, i0, i1, q0, q1, _, _, _, _, rfl⟩ | ⟨_, _, rfl⟩ |
      ⟨_, _, i0, i1, q0, q1, _, _, _, _, rfl⟩ | ⟨_, _, _, rfl⟩
    · refine ⟨?_, ?_, ?_, ?_⟩ <;> simp only [v6Base] <;> omega
    · have := i0.isLt; have := i1.isLt; have := q0.isLt; have := q1.isLt
      refine ⟨?_, ?_, ?_, ?_⟩ <;> simp only [v6Base] <;> omega
    · refine ⟨?_, ?_, ?_, ?_⟩ <;> simp only [v6Base] <;> omega
    · have := i0.isLt; have := i1.isLt; have := q0.isLt; have := q1.isLt
      refine ⟨?_, ?_, ?_, ?_⟩ <;> simp only [v6Base] <;> omega
    · refine ⟨?_, ?_, ?_, ?_⟩ <;> simp only [v6Base] <;> omega

theorem decoded_fields_in_range_witness :
    (∃ r, icmpV4RespParser sampleTimeExceededV4 [] = .ok r ∧
      r.typ ≤ 255 ∧ r.code ≤ 255 ∧ r.id ≤ 65535 ∧ r.seq ≤ 65535) ∧
    (∃ r, icmpV6RespParser sampleEchoReplyV6 [] = .ok r ∧
      r.typ ≤ 255 ∧ r.code ≤ 255 ∧ r.id ≤ 65535 ∧ r.seq ≤ 65535) :=
  ⟨⟨{ typ := 11, code := 0, id := 4660, seq := 7, src := netIPv4 10 0 0 254,
      ip := { dst := netIPv4 8 8 8 8, id := 43981 } }, rfl,
    (decoded_fields_in_range sampleTimeExceededV4 [] _).1 rfl⟩,
   ⟨{ typ := 129, code := 0, id := 4660, seq := 7 }, rfl,
    (decoded_fields_in_range sampleEchoReplyV6 [] _).2 rfl⟩⟩

/-- C18: when `ipv4.ParseHeader` rejects the quoted header (bytes 28 to 47),
a Time Exceeded of at least 56 bytes is still decoded to the identifier at
bytes 52-53 and the sequence number at bytes 54-55, with quoted
identification 0 and empty quoted destination, and a Destination Unreachable
of at least 48 bytes is decoded to type, code and source address only. -/
theorem quoted_header_rejected (b spare : List Byte) (e : HeaderError) (hlen : 48 ≤ b.length)
    (hp : ParseHeader ((b.take 48).drop 28) = .error e) :
    (b[20] = 11 → ∀ h56 : 56 ≤ b.length, ∃ r, icmpV4RespParser b spare = .ok r ∧
      r.id = 256 * b[52].val + b[53].val ∧ r.seq = 256 * b[54].val + b[55].val ∧
      r.ip.id = 0 ∧ r.ip.dst = []) ∧
    (b[20] = 3 → icmpV4RespParser b spare = .ok
      { typ := 3, code := b[21].val, id := 0, seq := 0,
        src := netIPv4 b[12] b[13] b[14] b[15],
        udp := { dstPort := 0 }, ip := { dst := [], id := 0 } }) := by
  constructor
  · intro ht h56
    refine ⟨_, v4_timeExceeded_eq b h56 ht, ?_, ?_, ?_, ?_⟩ <;>
      rw [withQuoted_of_error hp] <;> rfl
  · intro ht
    rw [v4_destUnreach_eq b hlen ht, withQuoted_of_error hp, ht]
    rfl

theorem quoted_header_rejected_witness :
    (∃ r, icmpV4RespParser sampleTimeExceededOptsV4 [] = .ok r ∧
      r.id = 4660 ∧ r.seq = 7 ∧ r.ip.id = 0 ∧ r.ip.dst = []) ∧
    icmpV4RespParser sampleDestUnreachOptsV4 [] = .ok
      { typ := 3, code := 1, id := 0, seq := 0, src := netIPv4 10 0 0 254,
        udp := { dstPort := 0 }, ip := { dst := [], id := 0 } } :=
  ⟨(quoted_header_rejected sampleTimeExceededOptsV4 [] .extHeaderTooShort (by decide) rfl).1
      (by decide) (by decide),
   (quoted_header_rejected sampleDestUnreachOptsV4 [] .extHeaderTooShort (by decide) rfl).2
      (by decide)⟩

/-- C19: whenever the IPv6 parser returns, the source address is empty, the
quoted identification is 0 and the UDP destination port is 0. -/
theorem icmpV6RespParser_leaves_src (b spare : List Byte) (r : ICMPResp)
    (h : icmpV6RespParser b spare = .ok r) : r.src = [] ∧ r.ip.id = 0 ∧ r.udp.dstPort = 0 := by
  obtain ⟨t, c, _, _, hc⟩ := v6_ok_inv h
  rcases hc with ⟨_, _, rfl⟩ | ⟨_, _, _, _, _, _, _, _, _, rfl⟩ | ⟨_, _, rfl⟩ |
    ⟨_, _, _, _, _, _, _, _, _, _, rfl⟩ | ⟨_, _, _, rfl⟩ <;> exact ⟨rfl, rfl, rfl⟩

theorem icmpV6RespParser_leaves_src_witness :
    ∃ r, icmpV6RespParser sampleTimeExceededV6 [] = .ok r ∧
      r.src = [] ∧ r.ip.id = 0 ∧ r.udp.dstPort = 0 :=
  ⟨{ typ := 3, code := 0, id := 4660, seq := 7,
     ip := { dst := [32, 1, 13, 184, 0, 0, 0, 0, 0, 0, 0, 0, 0, 0, 0, 2] } }, rfl,
   icmpV6RespParser_leaves_src sampleTimeExceededV6 [] _ rfl⟩

/-- C20: a datagram of a type the parser does not know is decoded to its
header only. IPv4, at least 22 bytes, type none of 0, 3, 11: type, code and
source address, everything else zero or empty. IPv6, at least 2 bytes, type
none of 129, 1, 3: type and code, everything else zero or empty. -/
theorem foreign_type_header_only (b spare : List Byte) :
    (∀ hlen : 22 ≤ b.length, b[20] ≠ 0 → b[20] ≠ 3 → b[20] ≠ 11 →
      icmpV4RespParser b spare = .ok
        { typ := b[20].val, code := b[21].val, id := 0, seq := 0,
          src := netIPv4 b[12] b[13] b[14] b[15],
          udp := { dstPort := 0 }, ip := { dst := [], id := 0 } }) ∧
    (∀ hlen : 2 ≤ b.length, b[0] ≠ 129 → b[0] ≠ 1 → b[0] ≠ 3 →
      icmpV6RespParser b spare = .ok
        { typ := b[0].val, code := b[1].val, id := 0, seq := 0, src := [],
          udp := { dstPort := 0 }, ip := { dst := [], id := 0 } }) := by
  constructor
  · intro hlen h0 h3 h11
    rw [v4_other_eq b hlen h0 h3 h11]
    rfl
  · intro hlen h129 h1 h3
    rw [v6_other_eq b hlen h129 h1 h3]
    rfl

theorem foreign_type_header_only_witness :
    icmpV4RespParser sampleEchoRequestV4 [] = .ok
        { typ := 8, code := 0, id := 0, seq := 0, src := netIPv4 10 0 0 2,
          udp := { dstPort := 0 }, ip := { dst := [], id := 0 } } ∧
      icmpV6RespParser sampleNeighborSolicitV6 [] = .ok
        { typ := 135, code := 0, id := 0, seq := 0, src := [],
          udp := { dstPort := 0 }, ip := { dst := [], id := 0 } } :=
  ⟨(foreign_type_header_only sampleEchoRequestV4 []).1 (by decide) (by decide) (by decide)
      (by decide),
   (foreign_type_header_only sampleNeighborSolicitV6 []).2 (by decide) (by decide) (by decide)
      (by decide)⟩

end Mylg
